import Mathlib

/-!
Verification of the Vanguard-style card-game engine ("vg-js").

This file gives a shallow embedding, translated from the JavaScript sources,
of the parts of the engine that the verified properties talk about:

* `src/core/Card.js`, `src/core/Circle.js`, `Board`, `src/core/Party.js`
  (entity model, `draw`, `damageCheck`, `applyTriggerEffect`);
* `src/core/ConditionEvaluator.js` (`evaluateCondition` over JS values);
* `src/core/EffectLibrary.js` (the four registered effect procedures);
* `src/core/ActionManager.js` (`getPossibleActions` and its sub-generators);
* `src/core/ActionApplier.js` (all appliers, `processEvents`, `applyAction`,
  `applyCloseStep`);
* the MCTS evaluation engine's `_backpropagate` and `_determinize`.

Modelling conventions, used consistently below:

* JavaScript numbers that the engine uses as integers are modelled as `Int`
  (or `Nat` where the source guarantees non-negativity); the two rollout
  scores, which are genuine fractions, are modelled as `Rat`.
* A JS field that can be `null`/`undefined` is an `Option`.
* A JS `throw` (e.g. `Board.getCircle` on an unknown name, or calling a
  method of `undefined`) is `Except.error ()`.
* `Math.random`-driven shuffles are a function parameter `shuf`; theorems
  that need it assume it permutes its input.
* `readline` interaction is a list of pre-parsed integer answers (an
  "oracle"); `parseInt` producing `NaN` is `none`.
* Deep cloning of a pure value is the value itself.  Where a JS function
  returns the *incoming reference* instead of the fresh clone (the error
  paths of `applyCall`, `applyGuard`, ..., `applyRide`), the embedding
  records this with the `AliasOr` type, so that the dispatcher can model
  which object later mutations land on.
-/

/-- A JavaScript runtime value, as far as the condition language and the
effect data of this engine can observe it.  Strings are lists of characters
so that substring and indexing operations stay elementary. -/
inductive JSVal : Type where
  | undef : JSVal
  | null : JSVal
  | bool : Bool → JSVal
  | num : Int → JSVal
  | str : List Char → JSVal
  | arr : List JSVal → JSVal
  deriving Repr

mutual

/-- Decidable equality for `JSVal` (spelt out because of the nested list). -/
def JSVal.decEq : (a b : JSVal) → Decidable (a = b)
  | .undef, .undef => isTrue rfl
  | .null, .null => isTrue rfl
  | .bool a, .bool b =>
    match inferInstanceAs (Decidable (a = b)) with
    | isTrue h => isTrue (by rw [h])
    | isFalse h => isFalse (fun hh => h (by injection hh))
  | .num a, .num b =>
    match inferInstanceAs (Decidable (a = b)) with
    | isTrue h => isTrue (by rw [h])
    | isFalse h => isFalse (fun hh => h (by injection hh))
  | .str a, .str b =>
    match inferInstanceAs (Decidable (a = b)) with
    | isTrue h => isTrue (by rw [h])
    | isFalse h => isFalse (fun hh => h (by injection hh))
  | .arr a, .arr b =>
    match JSVal.decEqList a b with
    | isTrue h => isTrue (by rw [h])
    | isFalse h => isFalse (fun hh => h (by injection hh))
  | .undef, .null | .undef, .bool _ | .undef, .num _ | .undef, .str _ | .undef, .arr _ =>
    isFalse nofun
  | .null, .undef | .null, .bool _ | .null, .num _ | .null, .str _ | .null, .arr _ =>
    isFalse nofun
  | .bool _, .undef | .bool _, .null | .bool _, .num _ | .bool _, .str _ | .bool _, .arr _ =>
    isFalse nofun
  | .num _, .undef | .num _, .null | .num _, .bool _ | .num _, .str _ | .num _, .arr _ =>
    isFalse nofun
  | .str _, .undef | .str _, .null | .str _, .bool _ | .str _, .num _ | .str _, .arr _ =>
    isFalse nofun
  | .arr _, .undef | .arr _, .null | .arr _, .bool _ | .arr _, .num _ | .arr _, .str _ =>
    isFalse nofun

/-- Decidable equality for lists of `JSVal`. -/
def JSVal.decEqList : (x y : List JSVal) → Decidable (x = y)
  | [], [] => isTrue rfl
  | a :: as, b :: bs =>
    match JSVal.decEq a b, JSVal.decEqList as bs with
    | isTrue h1, isTrue h2 => isTrue (by rw [h1, h2])
    | isFalse h1, _ => isFalse (fun hh => h1 (by injection hh))
    | _, isFalse h2 => isFalse (fun hh => h2 (by injection hh))
  | [], _ :: _ => isFalse nofun
  | _ :: _, [] => isFalse nofun

end

instance : DecidableEq JSVal := JSVal.decEq

/-- JS truthiness test (`!v` in the source negates this). -/
def jsFalsy : JSVal → Bool
  | .undef => true
  | .null => true
  | .bool b => !b
  | .num n => n == 0
  | .str s => s.isEmpty
  | .arr _ => false

/-- Whether `pat` is a prefix of `s` (character lists). -/
def isPrefixCharB : List Char → List Char → Bool
  | [], _ => true
  | _ :: _, [] => false
  | p :: ps, c :: cs => p == c && isPrefixCharB ps cs

/-- JS `String.prototype.includes`: substring test on character lists. -/
def strIncludesB (pat : List Char) : List Char → Bool
  | [] => isPrefixCharB pat []
  | c :: t => isPrefixCharB pat (c :: t) || strIncludesB pat t

theorem isPrefixCharB_length_le {pat s : List Char} (h : isPrefixCharB pat s = true) :
    pat.length ≤ s.length := by
  induction pat generalizing s with
  | nil => exact Nat.zero_le _
  | cons p ps ih =>
    cases s with
    | nil => simp [isPrefixCharB] at h
    | cons c cs =>
      simp only [isPrefixCharB, Bool.and_eq_true] at h
      simpa [List.length_cons] using Nat.succ_le_succ (ih h.2)

theorem strIncludesB_length_le {pat : List Char} :
    ∀ {s : List Char}, strIncludesB pat s = true → pat.length ≤ s.length := by
  intro s
  induction s with
  | nil =>
    intro h
    exact isPrefixCharB_length_le (by simpa [strIncludesB] using h)
  | cons c t ih =>
    intro h
    simp only [strIncludesB, Bool.or_eq_true] at h
    rcases h with h | h
    · exact isPrefixCharB_length_le h
    · exact Nat.le_trans (ih h) (by simp)

mutual

/-- Size measure on `JSVal`, used for the evaluator's termination. -/
def JSVal.sz : JSVal → Nat
  | .undef => 1
  | .null => 1
  | .bool _ => 1
  | .num _ => 1
  | .str s => 1 + s.length
  | .arr l => 1 + JSVal.szList l

/-- Total size of a list of `JSVal`. -/
def JSVal.szList : List JSVal → Nat
  | [] => 0
  | a :: rest => JSVal.sz a + JSVal.szList rest

end

theorem JSVal.sz_pos (c : JSVal) : 0 < c.sz := by
  cases c <;> simp [JSVal.sz]

theorem JSVal.sz_le_szList {a : JSVal} :
    ∀ {l : List JSVal}, a ∈ l → a.sz ≤ JSVal.szList l := by
  intro l
  induction l with
  | nil => intro h; cases h
  | cons b rest ih =>
    intro h
    rcases List.mem_cons.mp h with h | h
    · subst h; simp [JSVal.szList]
    · calc a.sz ≤ JSVal.szList rest := ih h
        _ ≤ JSVal.sz b + JSVal.szList rest := Nat.le_add_left _ _
        _ = JSVal.szList (b :: rest) := rfl

/-- JS subscripting `v[i]` as it is used by the condition evaluator
(array element, single-character string, otherwise `undefined`). -/
def JSVal.jsIndex : JSVal → Nat → JSVal
  | .arr l, i => l.getD i .undef
  | .str s, i =>
    match s.drop i with
    | [] => .undef
    | c :: _ => .str [c]
  | _, _ => (.undef)

/-- JS `.length` (only arrays and strings have one here). -/
def JSVal.jsLength : JSVal → Option Nat
  | .arr l => some l.length
  | .str s => some s.length
  | _ => none

/-- JS `v.includes(pat)`: element test on arrays, substring test on strings,
a thrown `TypeError` on any other truthy value. -/
def jsIncludes (c : JSVal) (pat : List Char) : Except Unit Bool :=
  match c with
  | .arr l => .ok (l.contains (.str pat))
  | .str s => .ok (strIncludesB pat s)
  | _ => .error ()

theorem sz_jsIndex_lt_of_includes {c : JSVal} {pat : List Char} (i : Nat)
    (h : jsIncludes c pat = .ok true) (hpat : 2 ≤ pat.length) :
    (c.jsIndex i).sz < c.sz := by
  cases c with
  | arr l =>
    have hmem : JSVal.str pat ∈ l := by
      simpa [jsIncludes, List.contains_iff_exists_mem_beq] using h
    have hlist : 1 + pat.length ≤ JSVal.szList l := by
      have := JSVal.sz_le_szList hmem
      simpa [JSVal.sz] using this
    simp only [JSVal.jsIndex, JSVal.sz]
    by_cases hi : i < l.length
    · have hmem2 : l.getD i JSVal.undef ∈ l := by
        rw [List.getD_eq_getElem _ _ hi]
        exact List.getElem_mem _
      have := JSVal.sz_le_szList hmem2
      omega
    · have hd : l.getD i JSVal.undef = JSVal.undef :=
        List.getD_eq_default _ _ (Nat.le_of_not_lt hi)
      rw [hd]
      simp only [JSVal.sz]
      omega
  | str s =>
    have hlen : pat.length ≤ s.length := by
      have : strIncludesB pat s = true := by simpa [jsIncludes] using h
      exact strIncludesB_length_le this
    rcases hd : s.drop i with _ | ⟨c2, t⟩ <;>
      simp only [JSVal.jsIndex, hd, JSVal.sz, List.length_singleton] <;> omega
  | undef => simp [jsIncludes] at h
  | null => simp [jsIncludes] at h
  | bool b => simp [jsIncludes] at h
  | num n => simp [jsIncludes] at h

/-! ## Entity model (`Card.js`, `Circle.js`, `Board`, `Party.js`) -/

/-- One entry of a card's `effectsData.implemented_effects` array. -/
structure EffectDef where
  trigger : String
  zone : Option String
  condition : JSVal
  mandatory : Bool
  is_act : Bool
  once_per_turn : Bool
  function_index : Nat
  costEnergy : Option Int
  deriving DecidableEq, Repr

/-- The `Card` class of `src/core/Card.js`.  `drive` is stored as the
constructor stores it (`power === null ? 0 : drive`). -/
structure Card where
  uniqueId : Nat := 0
  id : String := ""
  name : String := ""
  grade : Option Int := none
  power : Option Int := none
  critical : Int := 1
  shield : Option Int := some 0
  skills : List String := []
  effectsData : List EffectDef := []
  trigger : Option String := none
  drive : Int := 1
  isResting : Bool := false
  bonusPower : Int := 0
  bonusCritical : Int := 0
  isPublic : Bool := false
  deriving DecidableEq, Repr

/-- The six circles of a board.  In JS these are `Circle` objects with a
fixed `name`/`row` assigned once by the `Board` constructor; the identifier
plays the role of the object reference. -/
inductive CircleId : Type where
  | V | R1 | R2 | R3 | R4 | R5
  deriving DecidableEq, Repr

/-- The fixed `name` of each circle. -/
def CircleId.cname : CircleId → String
  | .V => "V" | .R1 => "R1" | .R2 => "R2" | .R3 => "R3" | .R4 => "R4" | .R5 => "R5"

/-- The `Board` class: six unit slots (each `Circle.unit`). -/
structure Board where
  V : Option Card := none
  R1 : Option Card := none
  R2 : Option Card := none
  R3 : Option Card := none
  R4 : Option Card := none
  R5 : Option Card := none
  deriving DecidableEq, Repr

/-- Read a circle's unit. -/
def Board.get (b : Board) : CircleId → Option Card
  | .V => b.V | .R1 => b.R1 | .R2 => b.R2 | .R3 => b.R3 | .R4 => b.R4 | .R5 => b.R5

/-- Assign a circle's unit (the JS `circle.unit = ...`). -/
def Board.set (b : Board) : CircleId → Option Card → Board
  | .V, u => { b with V := u }
  | .R1, u => { b with R1 := u }
  | .R2, u => { b with R2 := u }
  | .R3, u => { b with R3 := u }
  | .R4, u => { b with R4 := u }
  | .R5, u => { b with R5 := u }

/-- The `frontRow` getter's circle order. -/
def Board.frontRowIds : List CircleId := [.R1, .V, .R2]

/-- The `backRow` getter's circle order. -/
def Board.backRowIds : List CircleId := [.R3, .R4, .R5]

/-- `Board.getCircle(name)`: lookup by name over `[V, R1, R2, R3, R4, R5]`;
throws (`Except.error`) when the name is unknown. -/
def Board.getCircleId (name : String) : Except Unit CircleId :=
  if name = "V" then .ok .V
  else if name = "R1" then .ok .R1
  else if name = "R2" then .ok .R2
  else if name = "R3" then .ok .R3
  else if name = "R4" then .ok .R4
  else if name = "R5" then .ok .R5
  else .error ()

/-- A `PlayerState` as built by `Party._createPlayerState`. -/
structure Player where
  deck : List Card := []
  rideDeck : List Card := []
  board : Board := {}
  hand : List Card := []
  dropZone : List Card := []
  damageZone : List Card := []
  soul : List Card := []
  gZone : List Card := []
  bindZone : List Card := []
  guardianZone : List Card := []
  triggerZone : List Card := []
  crestZone : List Card := []
  orderZone : List Card := []
  energy : Int := 0
  maxEnergy : Int := 3
  continuousEffects : List String := []
  usedTurnlyEffects : List Nat := []
  deriving DecidableEq, Repr

/-- The `currentBattle` record set by `applyAttack`.  The JS object stores
references to the attacker's circle (on the active player's board) and the
target's circle (on the opponent's board); the identifiers model those
references. -/
structure Battle where
  attackerCircle : CircleId
  targetCircle : CircleId
  attackerPower : Int
  deriving DecidableEq, Repr

/-- The part of an event that effect procedures read (`type` and `target`);
`target` is absent for the `{}` payload that `applyAct` passes. -/
structure EventPayload where
  type_ : String
  target : Option (List Card)
  deriving DecidableEq, Repr

/-- One entry of an event's `pendingEffects` list.  In JS `eventPayload` is
a reference to the event object itself (whose `pendingEffects` field makes
it cyclic); the embedding stores the acyclic `type`/`target` snapshot that
the effect procedures actually read. -/
structure PendingEffect where
  cardName : String
  cardId : String
  effect : EffectDef
  eventPayload : EventPayload
  deriving DecidableEq, Repr

/-- A queued event; `pendingEffects` is `none` until `processEvents`
collects it. -/
structure Event where
  type_ : String
  target : Option (List Card)
  pendingEffects : Option (List PendingEffect)
  deriving DecidableEq, Repr

/-- The `Party` game state.  The JS two-element `players` array is a
function out of `Fin 2` (`currentPlayerIndex` is always 0 or 1). -/
structure Party where
  players : Fin 2 → Player
  turn : Int := 0
  currentPlayerIndex : Fin 2 := 0
  phase : String := "setup"
  currentBattle : Option Battle := none
  eventQueue : List Event := []
  nextPhase : Option String := none
  deriving DecidableEq

/-- `party.players[i]`. -/
def Party.getPlayer (p : Party) (i : Fin 2) : Player :=
  p.players i

/-- Write back `party.players[i]`. -/
def Party.setPlayer (p : Party) (i : Fin 2) (pl : Player) : Party :=
  { p with players := Function.update p.players i pl }

/-- Update `party.players[i]` in place. -/
def Party.updPlayer (p : Party) (i : Fin 2) (f : Player → Player) : Party :=
  p.setPlayer i (f (p.getPlayer i))

/-- The JS index expression `1 - playerIndex`. -/
def otherIdx (i : Fin 2) : Fin 2 := 1 - i

/-- JS truthiness of an optional string field (`null`, `undefined` and the
empty string are falsy). -/
def jsTruthyStr : Option String → Bool
  | some s => !s.isEmpty
  | none => false

/-- `Party.draw(playerIndex, count)`: pop the top of the deck (the end of
the list) into the hand, `count` times, skipping when the deck is empty. -/
def Party.draw (p : Party) (i : Fin 2) : Nat → Party
  | 0 => p
  | n + 1 =>
    let pl := p.getPlayer i
    match pl.deck.getLast? with
    | some c =>
      (p.setPlayer i { pl with deck := pl.deck.dropLast, hand := pl.hand ++ [c] }).draw i n
    | none => p.draw i n

/-- A readline oracle: the pre-parsed (`parseInt`) answers that
`rl.question` will produce, in order; `none` is a non-numeric answer. -/
def Oracle : Type := List (Option Int)

instance : DecidableEq Oracle := inferInstanceAs (DecidableEq (List (Option Int)))

/-- Consume one oracle answer. -/
def oraclePop : Oracle → Option Int × Oracle
  | ([] : List (Option Int)) => (none, [])
  | (a :: r : List (Option Int)) => (a, r)

/-- The circles, in `[...frontRow, ...backRow]` order, that currently hold a
unit; positions in this list are the indices of `boardUnits` in
`Party.applyTriggerEffect`. -/
def Board.occupiedIds (b : Board) : List CircleId :=
  (Board.frontRowIds ++ Board.backRowIds).filter (fun cid => (b.get cid).isSome)

/-- Update the `k`-th occupied board unit (the JS
`boardUnits[k].bonusPower += ...`, which mutates the card sitting on its
circle). -/
def Board.updUnitAt (b : Board) (k : Nat) (f : Card → Card) : Board :=
  match b.occupiedIds.get? k with
  | some cid =>
    match b.get cid with
    | some u => b.set cid (some (f u))
    | none => b
  | none => b

/-- The guarded unit choice `if (boardUnits[idx]) ...` after a trigger
question: applies `f` to the chosen unit when the parsed answer is a valid
index, otherwise does nothing. -/
def Party.triggerBoostAt (p : Party) (i : Fin 2) (ans : Option Int) (f : Card → Card) : Party :=
  match ans with
  | none => p
  | some k =>
    let pl := p.getPlayer i
    if 0 ≤ k ∧ k < (pl.board.occupiedIds.length : Int) then
      p.setPlayer i { pl with board := pl.board.updUnitAt k.toNat f }
    else p

/-- `Party.applyTriggerEffect(triggerType, playerIndex, rl)`. -/
def Party.applyTriggerEffect (p : Party) (triggerType : String) (i : Fin 2) (o : Oracle) :
    Party × Oracle :=
  if triggerType = "Front" then
    -- all front-row units of the player get +10000 power, no choice
    let pl := p.getPlayer i
    let b := Board.frontRowIds.foldl
      (fun bb cid =>
        match bb.get cid with
        | some u => bb.set cid (some { u with bonusPower := u.bonusPower + 10000 })
        | none => bb)
      pl.board
    (p.setPlayer i { pl with board := b }, o)
  else
    -- Critical / Draw / Heal first offer a +10000 power choice
    let (ans, o1) := oraclePop o
    let p1 := p.triggerBoostAt i ans (fun u => { u with bonusPower := u.bonusPower + 10000 })
    if triggerType = "Critical" then
      let (ans2, o2) := oraclePop o1
      (p1.triggerBoostAt i ans2 (fun u => { u with bonusCritical := u.bonusCritical + 1 }), o2)
    else if triggerType = "Draw" then
      (p1.draw i 1, o1)
    else if triggerType = "Heal" then
      let pl1 := p1.getPlayer i
      let opp := p1.getPlayer (otherIdx i)
      if pl1.damageZone.length ≥ opp.damageZone.length ∧ 0 < pl1.damageZone.length then
        match pl1.damageZone.getLast? with
        | some healed =>
          (p1.setPlayer i { pl1 with damageZone := pl1.damageZone.dropLast,
                                     dropZone := pl1.dropZone ++ [healed] }, o1)
        | none => (p1, o1)
      else (p1, o1)
    else (p1, o1)

/-- `Party.damageCheck(playerIndex, amount, rl)`: `amount` iterations, each
revealing the top deck card, resolving its trigger if present, then
appending the card to the damage zone; an iteration with an empty deck does
nothing. -/
def Party.damageCheck (p : Party) (i : Fin 2) (amount : Nat) (o : Oracle) : Party × Oracle :=
  match amount with
  | 0 => (p, o)
  | n + 1 =>
    let pl := p.getPlayer i
    match pl.deck.getLast? with
    | none => p.damageCheck i n o
    | some c =>
      let p1 := p.setPlayer i { pl with deck := pl.deck.dropLast }
      let (p2, o2) :=
        if jsTruthyStr c.trigger then p1.applyTriggerEffect (c.trigger.getD "") i o
        else (p1, o)
      let pl2 := p2.getPlayer i
      let p3 := p2.setPlayer i { pl2 with damageZone := pl2.damageZone ++ [c] }
      p3.damageCheck i n o2

/-! ## Condition evaluator (`src/core/ConditionEvaluator.js`) -/

/-- A value produced by `getContextValue`: `undefined`, a number, or the
`baseContext` object itself (returned when the path is just `"player"`). -/
inductive CtxVal : Type where
  | undef : CtxVal
  | num : Int → CtxVal
  | playerObj : CtxVal
  deriving DecidableEq, Repr

/-- JS falsiness of a context value (`acc && acc[part]` short-circuits on
falsy accumulators). -/
def ctxFalsy : CtxVal → Bool
  | .undef => true
  | .num n => n == 0
  | .playerObj => false

/-- Property access `acc[part]` inside the reduce: the `baseContext` object
exposes `index` and `energy`; anything else (including properties of
numbers) is `undefined`. -/
def ctxProp (party : Party) (acc : CtxVal) (part : List Char) : CtxVal :=
  match acc with
  | .playerObj =>
    if part = "index".toList then .num party.currentPlayerIndex.val
    else if part = "energy".toList then
      .num (party.getPlayer party.currentPlayerIndex).energy
    else .undef
  | _ => (.undef)

/-- `getContextValue(path, party)`: split on `'.'`; only the `player`
context exists; the remaining segments are folded with `acc && acc[part]`. -/
def getContextValue (path : List Char) (party : Party) : CtxVal :=
  match path.splitOn '.' with
  | [] => .undef
  | context :: restOfPath =>
    if context = "player".toList then
      restOfPath.foldl
        (fun acc part => if ctxFalsy acc then acc else ctxProp party acc part)
        .playerObj
    else (.undef)

/-- JS `Number(string)` for the strings that can appear as condition
values: empty is `0`, decimal digit runs (optionally negated) parse,
anything else is `NaN` (`none`). -/
def jsNumParse (s : List Char) : Option Int :=
  let digitsVal : List Char → Int :=
    fun t => (t.foldl (fun acc c => acc * 10 + (c.toNat - '0'.toNat)) 0 : Nat)
  if s.isEmpty then some 0
  else if s.all Char.isDigit then some (digitsVal s)
  else
    match s with
    | '-' :: rest =>
      if !rest.isEmpty && rest.all Char.isDigit then some (-(digitsVal rest)) else none
    | _ => none

/-- JS `ToNumber` of a condition value, as used by the relational
operators: `undefined` is `NaN`, `null` is `0`, booleans are `0`/`1`,
arrays coerce through their string form (empty → `0`, a numeric singleton →
its value, otherwise `NaN`). -/
def jsNumOfVal : JSVal → Option Int
  | .undef => none
  | .null => some 0
  | .bool b => some (if b then 1 else 0)
  | .num n => some n
  | .str s => jsNumParse s
  | .arr [] => some 0
  | .arr [.num n] => some n
  | .arr [.str s] => jsNumParse s
  | .arr _ => none

/-- JS `ToNumber` of a context value (`Number({}) = NaN`). -/
def jsNumOfCtx : CtxVal → Option Int
  | .undef => none
  | .num n => some n
  | .playerObj => none

/-- Strict equality `fieldValue === value`.  The field value is a number,
`undefined`, or the context object (which is never reference-equal to data
coming out of the condition array). -/
def jsStrictEqCtx : CtxVal → JSVal → Bool
  | .num n, .num m => n == m
  | .undef, .undef => true
  | _, _ => false

/-- Relational `fieldValue >= value` (numeric coercion; `NaN` compares
false). -/
def jsGeCtx (a : CtxVal) (b : JSVal) : Bool :=
  match jsNumOfCtx a, jsNumOfVal b with
  | some x, some y => x ≥ y
  | _, _ => false

/-- Relational `fieldValue <= value`. -/
def jsLeCtx (a : CtxVal) (b : JSVal) : Bool :=
  match jsNumOfCtx a, jsNumOfVal b with
  | some x, some y => x ≤ y
  | _, _ => false

/-- The tail of `evaluateCondition`: the single-comparison branch guarded by
`condition.length === 3`, and the final `Invalid condition format` fallback
(report and return `false`).  Destructuring gives `field = condition[0]`
etc.; `getContextValue` throws when `field` has no `.split`, i.e. is not a
string. -/
def evalConditionLeaf (condition : JSVal) (party : Party) : Except Unit Bool :=
  if condition.jsLength = some 3 then
    match condition.jsIndex 0 with
    | .str field =>
      let fieldValue := getContextValue field party
      let operator := condition.jsIndex 1
      let value := condition.jsIndex 2
      if operator = .str "===".toList then .ok (jsStrictEqCtx fieldValue value)
      else if operator = .str "!==".toList then .ok (!jsStrictEqCtx fieldValue value)
      else if operator = .str ">=".toList then .ok (jsGeCtx fieldValue value)
      else if operator = .str "<=".toList then .ok (jsLeCtx fieldValue value)
      else .ok false
    | _ => .error ()
  else .ok false

/-- `evaluateCondition(condition, party)`.  A falsy condition is `true`
("no condition is always met"); then `condition.includes('and') ||
condition.includes('or')` selects the composite attempt (whose two
recursive evaluations happen before the operator is inspected, and which
falls through to the leaf branch when `condition[1]` is neither `'and'` nor
`'or'`); otherwise the leaf branch runs. -/
def evaluateCondition (condition : JSVal) (party : Party) : Except Unit Bool :=
  if jsFalsy condition then .ok true
  else
    match hand : jsIncludes condition "and".toList with
    | .error e => .error e
    | .ok hasAnd =>
      match hor : jsIncludes condition "or".toList with
      | .error e => .error e
      | .ok hasOr =>
        if hcomp : hasAnd || hasOr then
          match evaluateCondition (condition.jsIndex 0) party with
          | .error e => .error e
          | .ok left =>
            let operator := condition.jsIndex 1
            match evaluateCondition (condition.jsIndex 2) party with
            | .error e => .error e
            | .ok right =>
              if operator = .str "and".toList then .ok (left && right)
              else if operator = .str "or".toList then .ok (left || right)
              else evalConditionLeaf condition party
        else evalConditionLeaf condition party
termination_by condition.sz
decreasing_by
  all_goals {
    rcases Bool.or_eq_true _ _ ▸ hcomp with h | h
    · exact sz_jsIndex_lt_of_includes _ (h ▸ hand) (by decide)
    · exact sz_jsIndex_lt_of_includes _ (h ▸ hor) (by decide)
  }

/-! ## Effect library (`src/core/EffectLibrary.js`) -/

/-- Effect 0, `onRideIfSecondDraw`: logs the ridden card's name (throwing if
the payload carries no card) and draws one card for the current player. -/
def onRideIfSecondDraw (party : Party) (payload : EventPayload) : Except Unit Party :=
  match payload.target with
  | some (_ridded :: _) => .ok (party.draw party.currentPlayerIndex 1)
  | _ => .error ()

/-- Effect 1, `onRideEnergyCrest`: move the `Energy Generator` card from the
ride deck to the crest zone (registering the max-energy continuous effect),
then Energy-Charge 3 if the player went second. -/
def onRideEnergyCrest (party : Party) (_payload : EventPayload) : Except Unit Party :=
  let i := party.currentPlayerIndex
  let pl := party.getPlayer i
  let p1 :=
    match pl.rideDeck.findIdx? (fun c => c.name = "Energy Generator") with
    | some k =>
      match pl.rideDeck.get? k with
      | some crest =>
        party.setPlayer i
          { pl with rideDeck := pl.rideDeck.eraseIdx k,
                    crestZone := pl.crestZone ++ [crest],
                    continuousEffects := pl.continuousEffects ++ ["MAX_ENERGY_10"] }
      | none => party
    | none => party
  .ok (if i = 1 then p1.updPlayer i (fun q => { q with energy := q.energy + 3 }) else p1)

/-- Effect 2, `onRidePhaseStartEnergyCrest`: Energy-Charge 3. -/
def onRidePhaseStartEnergyCrest (party : Party) (_payload : EventPayload) : Except Unit Party :=
  .ok (party.updPlayer party.currentPlayerIndex (fun q => { q with energy := q.energy + 3 }))

/-- Effect 3, `onActEnergyCrest`: pay Energy-Blast 7 and draw a card. -/
def onActEnergyCrest (party : Party) (_payload : EventPayload) : Except Unit Party :=
  let i := party.currentPlayerIndex
  let p1 := party.updPlayer i (fun q => { q with energy := q.energy - 7 })
  .ok (p1.draw i 1)

/-- The registry `effects` array; an effect's `function_index` indexes into
it. -/
def effectLibrary : List (Party → EventPayload → Except Unit Party) :=
  [onRideIfSecondDraw, onRideEnergyCrest, onRidePhaseStartEnergyCrest, onActEnergyCrest]

/-! ## Action generator (`src/core/ActionManager.js`) -/

/-- The closed union of action records that the generator produces and the
applier consumes.  Optional fields model record fields that some producers
omit (reading them in JS yields `undefined`): in particular a generated
`CALL` action carries `cardInstanceId`/`circleTag` but **no**
`cardIndexInHand`. -/
inductive GameAction : Type where
  | mulligan (cardIndicesToRedraw : List Nat)
  | ride (cardId : String) (source : String) (discardCardId : Option String)
  | passRidePhase
  | call (cardIndexInHand : Option Int) (cardInstanceId : Option Nat) (circleTag : String)
  | act (effect : EffectDef)
  | activateEffect (cardId : String) (function_index : Nat)
  | move (fromName : String) (toName : String)
  | attack (attackerName : String) (targetName : String) (boost : Bool)
  | guard (cardInstanceId : Nat)
  | intercept (cardInstanceId : Nat) (fromCircle : String)
  | passEffect
  | passMainPhase
  | passBattlePhase
  | passGuardStep
  | processEventsAction
  | pass
  deriving DecidableEq, Repr

/-- `getCallActions`: for every hand card with non-null power and grade at
most the vanguard's grade, one `CALL` per rear-guard circle.  Without a
vanguard no call is possible. -/
def getCallActions (gameState : Party) (activePlayer : Player) : List GameAction :=
  match activePlayer.board.get .V with
  | none => []
  | some vanguard =>
    let vanguardGrade := vanguard.grade
    let availableCircles : List CircleId := [.R1, .R2, .R3, .R4, .R5]
    activePlayer.hand.foldl
      (fun acc card =>
        if card.power.isSome && jsLeOpt card.grade vanguardGrade then
          acc ++ availableCircles.map (fun circle =>
            GameAction.call none (some card.uniqueId) circle.cname)
        else acc)
      []
where
  /-- JS `card.grade <= vanguardGrade` on possibly-null grades: `null`
  coerces to `0`, `undefined` would be `NaN` (never `≤`); grades here are
  `null` or numbers. -/
  jsLeOpt (a b : Option Int) : Bool := a.getD 0 ≤ b.getD 0

/-- `getMoveActions`: for the two columns `(R1,R3)` and `(R2,R5)`, a `MOVE`
action whenever at least one of the two circles is occupied. -/
def getMoveActions (_gameState : Party) (activePlayer : Player) : List GameAction :=
  let board := activePlayer.board
  ([(CircleId.R1, CircleId.R3), (CircleId.R2, CircleId.R5)]).foldl
    (fun acc fb =>
      let frontCircle := fb.1
      let backCircle := fb.2
      if (board.get frontCircle).isSome || (board.get backCircle).isSome then
        acc ++ [if (board.get frontCircle).isSome
                then GameAction.move frontCircle.cname backCircle.cname
                else GameAction.move backCircle.cname frontCircle.cname]
      else acc)
    []

/-- `getActActions`: scan board units and crest-zone cards for `is_act`
effects that are not spent (`once_per_turn` bookkeeping) and whose
condition holds; condition evaluation can throw. -/
def getActActions (gameState : Party) (activePlayer : Player) : Except Unit (List GameAction) :=
  let cardsWithPotentialActs : List Card :=
    (Board.frontRowIds.filterMap (fun cid => activePlayer.board.get cid)) ++
    (Board.backRowIds.filterMap (fun cid => activePlayer.board.get cid)) ++
    activePlayer.crestZone
  let pairs : List (Card × EffectDef) :=
    cardsWithPotentialActs.flatMap (fun c => c.effectsData.map (fun e => (c, e)))
  go pairs
where
  go : List (Card × EffectDef) → Except Unit (List GameAction)
    | [] => .ok []
    | (_, e) :: rest =>
      if e.is_act then
        if e.once_per_turn ∧ e.function_index ∈ activePlayer.usedTurnlyEffects then
          go rest
        else
          match evaluateCondition e.condition gameState with
          | .error u => .error u
          | .ok b =>
            match go rest with
            | .error u => .error u
            | .ok tl => .ok (if b then GameAction.act e :: tl else tl)
      else go rest

/-- `getGuardActions`: one `GUARD` per defending hand card whose shield is a
number, one `INTERCEPT` per occupied, untapped front-row circle whose unit
carries the `Intercept` skill, and always the single `PASS_GUARD_STEP`. -/
def getGuardActions (gameState : Party) : List GameAction :=
  let defendingPlayer := gameState.getPlayer (otherIdx gameState.currentPlayerIndex)
  let handGuards :=
    defendingPlayer.hand.foldl
      (fun acc card =>
        if card.shield.isSome then acc ++ [GameAction.guard card.uniqueId] else acc)
      []
  let interceptors := Board.frontRowIds.filter (fun cid =>
    match defendingPlayer.board.get cid with
    | some u => !u.isResting && u.skills.contains "Intercept"
    | none => false)
  let interceptActions := interceptors.map (fun cid =>
    match defendingPlayer.board.get cid with
    | some u => GameAction.intercept u.uniqueId cid.cname
    | none => GameAction.intercept 0 cid.cname)
  handGuards ++ interceptActions ++ [GameAction.passGuardStep]

/-- The back-row circle paired with a front-row attacker, per the literal
`{ 'R1': 'R3', 'V': 'R4', 'R2': 'R5' }` lookup (`none` models the
`undefined` lookup result for back-row names). -/
def backRowFor : CircleId → Option CircleId
  | .R1 => some .R3
  | .V => some .R4
  | .R2 => some .R5
  | _ => none

/-- `getBattlePhaseActions`: attacks from each untapped front-row attacker
against each occupied opposing front-row circle, with and without boost when
an untapped `Boost`-skilled unit sits behind the attacker; always
`PASS_BATTLE_PHASE`. -/
def getBattlePhaseActions (gameState : Party) : List GameAction :=
  let activePlayer := gameState.getPlayer gameState.currentPlayerIndex
  let opponentPlayer := gameState.getPlayer (otherIdx gameState.currentPlayerIndex)
  let potentialAttackers := Board.frontRowIds.filter (fun cid =>
    match activePlayer.board.get cid with
    | some u => !u.isResting
    | none => false)
  let potentialTargets := Board.frontRowIds.filter (fun cid =>
    (opponentPlayer.board.get cid).isSome)
  let atkActions :=
    if potentialTargets ≠ [] then
      potentialAttackers.flatMap (fun attackerCircle =>
        let boosterCircle : Option CircleId :=
          match backRowFor attackerCircle with
          | some backName =>
            match activePlayer.board.get backName with
            | some u =>
              if !u.isResting && u.skills.contains "Boost" then some backName else none
            | none => none
          | none => none
        let createAttackActions := fun (shouldBoost : Bool) =>
          potentialTargets.map (fun targetCircle =>
            GameAction.attack attackerCircle.cname targetCircle.cname shouldBoost)
        match boosterCircle with
        | some _ => createAttackActions true ++ createAttackActions false
        | none => createAttackActions false)
    else []
  atkActions ++ [GameAction.passBattlePhase]

/-- `getMainPhaseActions`: calls, moves, ACTs, then `PASS_MAIN_PHASE`. -/
def getMainPhaseActions (gameState : Party) : Except Unit (List GameAction) :=
  let activePlayer := gameState.getPlayer gameState.currentPlayerIndex
  match getActActions gameState activePlayer with
  | .error u => .error u
  | .ok actActions =>
    .ok (getCallActions gameState activePlayer ++ getMoveActions gameState activePlayer ++
         actActions ++ [GameAction.passMainPhase])

/-- `getMulliganActions`: all `2^handSize` redraw subsets, bit `j` of `i`
selecting card `j`. -/
def getMulliganActions (_gameState : Party) (activePlayer : Player) : List GameAction :=
  let handSize := activePlayer.hand.length
  (List.range (2 ^ handSize)).map (fun i =>
    GameAction.mulligan ((List.range handSize).filter (fun j => (i >>> j) % 2 = 1)))

/-- JS `new Map(hand.map(card => [card.name, card])).values()`: one card per
distinct name, in first-occurrence order of the name, the value being the
last card of that name. -/
def dedupByNameLastWins (l : List Card) : List Card :=
  ((l.map Card.name).eraseDups).filterMap (fun n => (l.filter (fun c => c.name = n)).getLast?)

/-- `getRideActions`: rides from hand (same grade or one higher than the
vanguard, deduplicated by card id), the ride-deck ride paired with each
distinct-named discard, and always `PASS_RIDE_PHASE`. -/
def getRideActions (_gameState : Party) (activePlayer : Player) : List GameAction :=
  -- `currentVanguardGrade` is `-1` with no vanguard, otherwise the
  -- vanguard's (possibly null) grade; the comparisons below are strict
  -- (`null === g` is false) while `currentVanguardGrade + 1` coerces
  -- `null` to `0`.
  let currentVanguardGrade : Option Int :=
    match activePlayer.board.get .V with
    | some c => c.grade
    | none => some (-1)
  let gradePlusOne : Int := currentVanguardGrade.getD 0 + 1
  let handRides :=
    (activePlayer.hand.foldl
      (fun (acc : List GameAction × List String) card =>
        if card.grade = some gradePlusOne ∨ card.grade = currentVanguardGrade then
          if card.id ∈ acc.2 then acc
          else (acc.1 ++ [GameAction.ride card.id "hand" none], acc.2 ++ [card.id])
        else acc)
      ([], [])).1
  let rideDeckRides :=
    match activePlayer.rideDeck.find? (fun c => c.grade == some gradePlusOne) with
    | some rideDeckCardToRide =>
      (dedupByNameLastWins activePlayer.hand).map (fun cardToDiscard =>
        GameAction.ride rideDeckCardToRide.id "rideDeck" (some cardToDiscard.id))
    | none => []
  handRides ++ rideDeckRides ++ [GameAction.passRidePhase]

/-- `getEffectActions`: one `ACTIVATE_EFFECT` per optional pending effect of
the head event plus `PASS_EFFECT`.  The lazy-collection fallback references
`collectEffectsForEvent`, which `ActionManager.js` neither defines nor
imports, so reaching it throws a `ReferenceError`. -/
def getEffectActions (gameState : Party) : Except Unit (List GameAction) :=
  match gameState.eventQueue with
  | [] => .ok []
  | ev :: _ =>
    match ev.pendingEffects with
    | none => .error ()
    | some pending =>
      let optionalEffects := pending.filter (fun p => !p.effect.mandatory)
      .ok ((optionalEffects.map (fun p =>
              GameAction.activateEffect p.cardId p.effect.function_index)) ++
           [GameAction.passEffect])

/-- `getPossibleActions(gameState)`: dispatch on the phase. -/
def getPossibleActions (gameState : Party) : Except Unit (List GameAction) :=
  let activePlayer := gameState.getPlayer gameState.currentPlayerIndex
  if gameState.phase = "mulligan" then .ok (getMulliganActions gameState activePlayer)
  else if gameState.phase = "ride" then .ok (getRideActions gameState activePlayer)
  else if gameState.phase = "main" then getMainPhaseActions gameState
  else if gameState.phase = "act" then .ok []
  else if gameState.phase = "battle" then .ok (getBattlePhaseActions gameState)
  else if gameState.phase = "guard" then .ok (getGuardActions gameState)
  else if gameState.phase = "effect_resolution" then getEffectActions gameState
  else .ok [GameAction.pass]

/-! ## Action applier (`src/core/ActionApplier.js`) -/

/-- Which JS reference an applier returned: a fresh deep clone carrying the
new state, or the *incoming* reference (`return gameState` on the error
paths), whose contents at that moment still equal the input. -/
inductive AliasOr : Type where
  | fresh : Party → AliasOr
  | orig : AliasOr
  deriving DecidableEq

/-- JS `x < 0` when `x` may be `undefined` (`undefined` compares `NaN`,
hence false). -/
def jsLtB : Option Int → Int → Bool
  | some v, b => v < b
  | none, _ => false

/-- JS `x >= n` when `x` may be `undefined`. -/
def jsGeB : Option Int → Int → Bool
  | some v, b => v ≥ b
  | none, _ => false

/-- Find an element and its index. -/
def findWithIdx? (l : List α) (p : α → Bool) : Option (Nat × α) :=
  match l.findIdx? p with
  | some k => (l.get? k).map (fun a => (k, a))
  | none => none

/-- `applyMulligan`: split the hand by the redraw indices, reset and return
the redrawn cards to the top of the deck, shuffle, redraw the same number,
then hand the mulligan to the other player (entering `stand` once player 2
is done). -/
def applyMulligan (shuf : List Card → List Card) (gameState : Party)
    (cardIndicesToRedraw : List Nat) : Party :=
  let i := gameState.currentPlayerIndex
  let pl := gameState.getPlayer i
  let withIdx := pl.hand.enum
  let cardsToRedraw := (withIdx.filter (fun q => cardIndicesToRedraw.contains q.1)).map Prod.snd
  let cardsToKeep := (withIdx.filter (fun q => !cardIndicesToRedraw.contains q.1)).map Prod.snd
  let reset := cardsToRedraw.map (fun c =>
    { c with isResting := false, bonusPower := 0, bonusCritical := 0, isPublic := false })
  let p1 := gameState.setPlayer i { pl with deck := reset ++ pl.deck, hand := cardsToKeep }
  let p2 := p1.updPlayer i (fun q => { q with deck := shuf q.deck })
  let p3 := p2.draw i cardsToRedraw.length
  if i = 0 then { p3 with currentPlayerIndex := 1 }
  else { p3 with currentPlayerIndex := 0, phase := "stand" }

/-- `applyCall`: bounds-check `action.cardIndexInHand` (a *missing* index
passes both `NaN` comparisons), `splice` the card out of the hand
(`splice(undefined, 1)` removes index 0), look the circle up by name
(throwing on an unknown tag), retire a prior occupant to the drop zone and
place the card. -/
def applyCall (gameState : Party) (cardIndexInHand : Option Int) (circleTag : String) :
    Except Unit AliasOr :=
  let i := gameState.currentPlayerIndex
  let pl := gameState.getPlayer i
  if jsLtB cardIndexInHand 0 || jsGeB cardIndexInHand pl.hand.length then
    .ok .orig
  else
    let idx : Nat := match cardIndexInHand with | none => 0 | some v => v.toNat
    let cardToCall := pl.hand.get? idx
    let hand' := pl.hand.eraseIdx idx
    match Board.getCircleId circleTag with
    | .error u => .error u
    | .ok cid =>
      let dropZone' :=
        match pl.board.get cid with
        | some u => pl.dropZone ++ [u]
        | none => pl.dropZone
      .ok (.fresh (gameState.setPlayer i
        { pl with hand := hand', dropZone := dropZone', board := pl.board.set cid cardToCall }))

/-- `applyMove`: look both circles up by name (throwing on unknown names)
and swap their units. -/
def applyMove (gameState : Party) (fromName toName : String) : Except Unit Party :=
  let i := gameState.currentPlayerIndex
  let pl := gameState.getPlayer i
  match Board.getCircleId fromName with
  | .error u => .error u
  | .ok c1 =>
    match Board.getCircleId toName with
    | .error u => .error u
    | .ok c2 =>
      let u1 := pl.board.get c1
      let u2 := pl.board.get c2
      .ok (gameState.setPlayer i { pl with board := (pl.board.set c1 u2).set c2 u1 })

/-- `applyGuard`: move the identified card from the defending hand to the
guardian zone; an unknown instance id returns the original state. -/
def applyGuard (gameState : Party) (cardInstanceId : Nat) : AliasOr :=
  let d := otherIdx gameState.currentPlayerIndex
  let pl := gameState.getPlayer d
  match findWithIdx? pl.hand (fun c => c.uniqueId == cardInstanceId) with
  | none => .orig
  | some ki =>
    .fresh (gameState.setPlayer d
      { pl with hand := pl.hand.eraseIdx ki.1, guardianZone := pl.guardianZone ++ [ki.2] })

/-- `applyIntercept`: move the identified front-row unit to the guardian
zone as rested; an unknown circle name throws, a vacant circle or an id
mismatch returns the original state. -/
def applyIntercept (gameState : Party) (cardInstanceId : Nat) (fromCircle : String) :
    Except Unit AliasOr :=
  let d := otherIdx gameState.currentPlayerIndex
  let pl := gameState.getPlayer d
  match Board.getCircleId fromCircle with
  | .error u => .error u
  | .ok cid =>
    match pl.board.get cid with
    | none => .ok .orig
    | some u =>
      if u.uniqueId ≠ cardInstanceId then .ok .orig
      else
        .ok (.fresh (gameState.setPlayer d
          { pl with board := pl.board.set cid none,
                    guardianZone := pl.guardianZone ++ [{ u with isResting := true }] }))

/-- `applyAct`: refuse when the (truthy) energy cost exceeds the player's
energy, record a `once_per_turn` use, then run the registry procedure if
the index is registered. -/
def applyAct (gameState : Party) (effect : EffectDef) : Except Unit Party :=
  let i := gameState.currentPlayerIndex
  let pl := gameState.getPlayer i
  let costUnaffordable : Bool :=
    match effect.costEnergy with
    | some e => e != 0 && decide (pl.energy < e)
    | none => false
  if costUnaffordable then
    .ok gameState
  else
    let p1 :=
      if effect.once_per_turn then
        gameState.setPlayer i
          { pl with usedTurnlyEffects := pl.usedTurnlyEffects ++ [effect.function_index] }
      else gameState
    match effectLibrary.get? effect.function_index with
    | some f => f p1 { type_ := "", target := none }
    | none => .ok p1

/-- `applyAttack`: look up attacker and target circles (throwing on unknown
names), require both units, rest the attacker, add the boost (resting the
booster) when requested — a boost from a back-row attacker name feeds the
`undefined` map lookup into `getCircle`, which throws — record the battle
and enter the guard step. -/
def applyAttack (gameState : Party) (attackerName targetName : String) (boost : Bool) :
    Except Unit AliasOr :=
  let i := gameState.currentPlayerIndex
  let d := otherIdx i
  let activePlayer := gameState.getPlayer i
  let opponentPlayer := gameState.getPlayer d
  match Board.getCircleId attackerName with
  | .error u => .error u
  | .ok attCid =>
    match Board.getCircleId targetName with
    | .error u => .error u
    | .ok tgtCid =>
      match activePlayer.board.get attCid, opponentPlayer.board.get tgtCid with
      | some au, some _tu =>
        let board1 := activePlayer.board.set attCid (some { au with isResting := true })
        let attackerPower := au.power.getD 0 + au.bonusPower
        let boosted : Except Unit (Board × Int) :=
          if boost then
            match backRowFor attCid with
            | none => .error ()
            | some bCid =>
              match board1.get bCid with
              | some bu =>
                .ok (board1.set bCid (some { bu with isResting := true }),
                     attackerPower + (bu.power.getD 0 + bu.bonusPower))
              | none => .ok (board1, attackerPower)
          else .ok (board1, attackerPower)
        match boosted with
        | .error u => .error u
        | .ok bp =>
          .ok (.fresh { gameState.setPlayer i { activePlayer with board := bp.1 } with
            currentBattle := some { attackerCircle := attCid, targetCircle := tgtCid,
                                    attackerPower := bp.2 },
            phase := "guard" })
      | _, _ => .ok .orig

/-- The shared tail of `applyRide` (from `const vanguardCircle = ...` on):
move a previous vanguard to the soul and enqueue `ON_RIDE`, seat the new
vanguard, and pre-set `nextPhase` to `main`. -/
def applyRideSeat (p : Party) (cardToRide : Card) : Party :=
  let i := p.currentPlayerIndex
  let pl := p.getPlayer i
  match pl.board.get .V with
  | some prev =>
    let p1 := p.setPlayer i { pl with soul := pl.soul ++ [prev] }
    let p2 : Party := { p1 with eventQueue := p1.eventQueue ++
      [{ type_ := "ON_RIDE", target := some [prev, cardToRide], pendingEffects := none }] }
    let pl2 := p2.getPlayer i
    let p3 := p2.setPlayer i { pl2 with board := pl2.board.set .V (some cardToRide) }
    { p3 with nextPhase := some "main" }
  | none =>
    let p3 := p.setPlayer i { pl with board := pl.board.set .V (some cardToRide) }
    { p3 with nextPhase := some "main" }

/-- `applyRide`: take the card from the named source (`hand` or `rideDeck`,
the latter also discarding a named hand card), returning the original state
when any lookup fails or the source is unknown; then seat the vanguard via
`applyRideSeat`. -/
def applyRide (gameState : Party) (cardId : String) (source : String)
    (discardCardId : Option String) : AliasOr :=
  let i := gameState.currentPlayerIndex
  let pl := gameState.getPlayer i
  if source = "hand" then
    match findWithIdx? pl.hand (fun c => c.id == cardId) with
    | none => .orig
    | some ki =>
      .fresh (applyRideSeat (gameState.setPlayer i { pl with hand := pl.hand.eraseIdx ki.1 })
        ki.2)
  else if source = "rideDeck" then
    match findWithIdx? pl.rideDeck (fun c => c.id == cardId) with
    | none => .orig
    | some ki =>
      let p1 := gameState.setPlayer i { pl with rideDeck := pl.rideDeck.eraseIdx ki.1 }
      let pl1 := p1.getPlayer i
      match (match discardCardId with
             | some d => findWithIdx? pl1.hand (fun c => c.id == d)
             | none => none) with
      | none => .orig
      | some dk =>
        .fresh (applyRideSeat
          (p1.setPlayer i { pl1 with hand := pl1.hand.eraseIdx dk.1,
                                     dropZone := pl1.dropZone ++ [dk.2] })
          ki.2)
  else .orig

/-- `collectEffectsForEvent`: scan both players' board, ride-deck, crest and
soul cards for effect definitions whose trigger matches the lowercased event
type, whose zone restriction (if any) matches, whose owner is the current
player, and whose condition holds (condition evaluation can throw). -/
def collectEffectsForEvent (ev : Event) (party : Party) : Except Unit (List PendingEffect) :=
  let eventTriggerName : String := ev.type_.map Char.toLower
  let allCardsInPlay : List (Card × String × Fin 2) :=
    ([0, 1] : List (Fin 2)).flatMap (fun i =>
      let player := party.getPlayer i
      (Board.frontRowIds.filterMap (fun cid =>
         (player.board.get cid).map (fun c => (c, "board", i)))) ++
      (Board.backRowIds.filterMap (fun cid =>
         (player.board.get cid).map (fun c => (c, "board", i)))) ++
      (player.rideDeck.map (fun c => (c, "rideDeck", i))) ++
      (player.crestZone.map (fun c => (c, "crestZone", i))) ++
      (player.soul.map (fun c => (c, "soul", i))))
  let quads : List (Card × String × Fin 2 × EffectDef) :=
    allCardsInPlay.flatMap (fun t => t.1.effectsData.map (fun e => (t.1, t.2.1, t.2.2, e)))
  go eventTriggerName quads
where
  go (trig : String) : List (Card × String × Fin 2 × EffectDef) →
      Except Unit (List PendingEffect)
    | [] => .ok []
    | (card, zone, ownerIndex, effect) :: rest =>
      if effect.trigger ≠ trig then go trig rest
      else if effect.zone.isSome ∧ effect.zone ≠ some zone then go trig rest
      else if ownerIndex ≠ party.currentPlayerIndex then go trig rest
      else
        match evaluateCondition effect.condition party with
        | .error u => .error u
        | .ok b =>
          match go trig rest with
          | .error u => .error u
          | .ok tl =>
            .ok (if b then
                   { cardName := card.name, cardId := card.id, effect := effect,
                     eventPayload := { type_ := ev.type_, target := ev.target } } :: tl
                 else tl)

/-- Replace the head event's pending list (the JS mutation
`currentEvent.pendingEffects = ...` through the head reference). -/
def updateHeadPending (s : Party) (l : List PendingEffect) : Party :=
  match s.eventQueue with
  | ev :: rest => { s with eventQueue := { ev with pendingEffects := some l } :: rest }
  | [] => s

/-- `applyActivateEffect`: match the chosen optional effect against the head
event's pending list (an uncollected list makes the `undefined.find` throw;
an empty queue or a failed match returns the original state), run the
registry procedure on the clone, then remove the effect from the (clone's)
pending list.  The four registered procedures never touch the event queue,
so the head event after the call is still the matched one. -/
def applyActivateEffect (gameState : Party) (cardId : String) (function_index : Nat) :
    Except Unit AliasOr :=
  match gameState.eventQueue with
  | [] => .ok .orig
  | currentEvent :: _ =>
    match currentEvent.pendingEffects with
    | none => .error ()
    | some pending =>
      match pending.find? (fun q =>
          q.cardId == cardId && q.effect.function_index == function_index) with
      | none => .ok .orig
      | some originalPendingEffect =>
        let afterEffect : Except Unit Party :=
          match effectLibrary.get? function_index with
          | some f => f gameState originalPendingEffect.eventPayload
          | none => .ok gameState
        match afterEffect with
        | .error u => .error u
        | .ok p1 =>
          let p2 :=
            match p1.eventQueue with
            | ev :: r2 =>
              match ev.pendingEffects with
              | some pe =>
                match pe.findIdx? (fun q =>
                    q.cardId == cardId && q.effect.function_index == function_index) with
                | some k =>
                  { p1 with eventQueue := { ev with pendingEffects := some (pe.eraseIdx k) } :: r2 }
                | none => p1
              | none => p1
            | [] => p1
          .ok (.fresh p2)

/-- `applyPassEffect`: drop every optional pending effect of the head event
(mandatory ones stay). -/
def applyPassEffect (gameState : Party) : Party :=
  match gameState.eventQueue with
  | [] => gameState
  | ev :: rest =>
    match ev.pendingEffects with
    | some pe =>
      { gameState with
        eventQueue := { ev with pendingEffects := some (pe.filter (fun p => p.effect.mandatory)) }
          :: rest }
    | none => gameState

/-- `processEvents`, fuelled (the JS `while` loop; `none` means the fuel ran
out, which the theorems never rely on).  While the queue is non-empty: the
head event's pending effects are collected on demand; the first mandatory
effect is removed from the pending list *before* its registry procedure runs
on the state (calling an unregistered index throws); optional-only events
park the state in `effect_resolution`; drained events are popped.  An empty
queue advances the phase to the recorded `nextPhase` (default `main`). -/
def processEvents (fuel : Nat) (party : Party) : Option (Except Unit Party) :=
  match party.eventQueue with
  | [] => some (.ok { party with phase := party.nextPhase.getD "main" })
  | currentEvent :: rest =>
    match fuel with
    | 0 => none
    | n + 1 =>
      let collected : Except Unit (Party × List PendingEffect) :=
        match currentEvent.pendingEffects with
        | some l => .ok (party, l)
        | none =>
          match collectEffectsForEvent currentEvent party with
          | .error u => .error u
          | .ok l => .ok (updateHeadPending party l, l)
      match collected with
      | .error u => some (.error u)
      | .ok sl =>
        let s1 := sl.1
        let pending := sl.2
        match pending.filter (fun p => p.effect.mandatory) with
        | effectToResolve :: _ =>
          -- remove from pending BEFORE applying (the splice at the
          -- effect's indexOf position = erase of the first equal entry)
          let s2 := updateHeadPending s1 (pending.erase effectToResolve)
          match effectLibrary.get? effectToResolve.effect.function_index with
          | none => some (.error ())
          | some f =>
            match f s2 effectToResolve.eventPayload with
            | .error u => some (.error u)
            | .ok s3 => processEvents n s3
        | [] =>
          match pending.filter (fun p => !p.effect.mandatory) with
          | _ :: _ => some (.ok { s1 with phase := "effect_resolution" })
          | [] => processEvents n { s1 with eventQueue := rest }
  termination_by fuel

/-- `applyAction`, fuelled through `processEvents`.  The result pairs the
returned state with the contents observable through the *input* reference
after the call: every branch that runs on a fresh clone leaves it at `s`;
the `RIDE` and `ACTIVATE_EFFECT` error paths hand the input reference
itself to the post-action bookkeeping (`nextPhase` assignment and
`processEvents`), so there the input's contents are the returned state. -/
def applyAction (fuel : Nat) (shuf : List Card → List Card) (gameState : Party)
    (action : GameAction) : Option (Except Unit (Party × Party)) :=
  match action with
  | .mulligan idxs => some (.ok (applyMulligan shuf gameState idxs, gameState))
  | .ride cardId source discardCardId =>
    (match applyRide gameState cardId source discardCardId with
     | .fresh ns =>
       (processEvents fuel { ns with nextPhase := some "main" }).map (fun r =>
         match r with
         | .error u => .error u
         | .ok out => .ok (out, gameState))
     | .orig =>
       (processEvents fuel { gameState with nextPhase := some "main" }).map (fun r =>
         match r with
         | .error u => .error u
         | .ok out => .ok (out, out)))
  | .passRidePhase =>
    (processEvents fuel { gameState with nextPhase := some "main" }).map (fun r =>
      match r with
      | .error u => .error u
      | .ok out => .ok (out, gameState))
  | .call idx _cardInstanceId circleTag =>
    some (match applyCall gameState idx circleTag with
      | .error u => .error u
      | .ok (.fresh ns) => .ok (ns, gameState)
      | .ok .orig => .ok (gameState, gameState))
  | .act effect =>
    some (match applyAct gameState effect with
      | .error u => .error u
      | .ok ns => .ok (ns, gameState))
  | .activateEffect cardId function_index =>
    (match applyActivateEffect gameState cardId function_index with
     | .error u => some (.error u)
     | .ok (.fresh ns) =>
       (processEvents fuel ns).map (fun r =>
         match r with
         | .error u => .error u
         | .ok out => .ok (out, gameState))
     | .ok .orig =>
       (processEvents fuel gameState).map (fun r =>
         match r with
         | .error u => .error u
         | .ok out => .ok (out, out)))
  | .move fromName toName =>
    some (match applyMove gameState fromName toName with
      | .error u => .error u
      | .ok ns => .ok (ns, gameState))
  | .attack attackerName targetName boost =>
    some (match applyAttack gameState attackerName targetName boost with
      | .error u => .error u
      | .ok (.fresh ns) => .ok (ns, gameState)
      | .ok .orig => .ok (gameState, gameState))
  | .guard cardInstanceId =>
    some (match applyGuard gameState cardInstanceId with
      | .fresh ns => .ok (ns, gameState)
      | .orig => .ok (gameState, gameState))
  | .intercept cardInstanceId fromCircle =>
    some (match applyIntercept gameState cardInstanceId fromCircle with
      | .error u => .error u
      | .ok (.fresh ns) => .ok (ns, gameState)
      | .ok .orig => .ok (gameState, gameState))
  | .passEffect =>
    (processEvents fuel (applyPassEffect gameState)).map (fun r =>
      match r with
      | .error u => .error u
      | .ok out => .ok (out, gameState))
  | .passMainPhase =>
    (processEvents fuel { gameState with nextPhase := some "battle" }).map (fun r =>
      match r with
      | .error u => .error u
      | .ok out => .ok (out, gameState))
  | .passBattlePhase =>
    (processEvents fuel { gameState with nextPhase := some "end" }).map (fun r =>
      match r with
      | .error u => .error u
      | .ok out => .ok (out, gameState))
  | .passGuardStep =>
    (processEvents fuel { gameState with nextPhase := some "drive_check" }).map (fun r =>
      match r with
      | .error u => .error u
      | .ok out => .ok (out, gameState))
  | .processEventsAction => some (.ok (gameState, gameState))
  | .pass => some (.ok (gameState, gameState))

/-- The tail of `applyCloseStep` after battle resolution: guardians go to
the drop zone, the battle record is cleared, and the phase returns to
`battle` or advances to `end` depending on remaining untapped front-row
attackers. -/
def closeStepFinish (p : Party) : Party :=
  let d := otherIdx p.currentPlayerIndex
  let opp := p.getPlayer d
  let p1 := p.setPlayer d
    { opp with dropZone := opp.dropZone ++ opp.guardianZone, guardianZone := [] }
  let p2 := { p1 with currentBattle := none }
  let activePlayer := p2.getPlayer p2.currentPlayerIndex
  let potentialAttackers := Board.frontRowIds.filter (fun cid =>
    match activePlayer.board.get cid with
    | some u => !u.isResting
    | none => false)
  if potentialAttackers.isEmpty then { p2 with phase := "end" }
  else { p2 with phase := "battle" }

/-- `applyCloseStep(gameState, rl)`: compare the recorded attacker power
against the target's power plus bonus plus the summed guardian shields
(`>=` hits); a hit on `V` computes `critical + bonusCritical` damage and —
only when a readline interface was passed — runs the damage checks; a hit
elsewhere retires the target to the drop zone.  Destructuring a missing
battle record, or dereferencing a vacated target or attacker circle,
throws. -/
def applyCloseStep (gameState : Party) (rl : Option Oracle) : Except Unit Party :=
  match gameState.currentBattle with
  | none => .error ()
  | some battle =>
    let i := gameState.currentPlayerIndex
    let d := otherIdx i
    let opponentPlayer := gameState.getPlayer d
    let totalShield := (opponentPlayer.guardianZone.map (fun c => c.shield.getD 0)).sum
    match opponentPlayer.board.get battle.targetCircle with
    | none => .error ()
    | some tu =>
      let targetPower := tu.power.getD 0 + tu.bonusPower + totalShield
      let resolved : Except Unit Party :=
        if battle.attackerPower ≥ targetPower then
          if battle.targetCircle = .V then
            match (gameState.getPlayer i).board.get battle.attackerCircle with
            | none => .error ()
            | some au =>
              let damage := au.critical + au.bonusCritical
              match rl with
              | some o => .ok (gameState.damageCheck d damage.toNat o).1
              | none => .ok gameState
          else
            .ok (gameState.setPlayer d
              { opponentPlayer with dropZone := opponentPlayer.dropZone ++ [tu],
                                    board := opponentPlayer.board.set battle.targetCircle none })
        else .ok gameState
      match resolved with
      | .error u => .error u
      | .ok p1 => .ok (closeStepFinish p1)

/-! ## Evaluation engine (`EvaluationEngine.js`) -/

/-- The MCTS bookkeeping data of one tree node (`visits` and the
accumulated `scoreData`). -/
structure NodeData where
  visits : Nat := 0
  gradeScore : Rat := 0
  damageScore : Rat := 0
  deriving DecidableEq, Repr

/-- One simulation result: the two normalized rollout sub-scores. -/
structure SimResult where
  gradeScore : Rat
  damageScore : Rat
  deriving DecidableEq, Repr

/-- Add one visit and the simulation's two sub-scores to a node. -/
def NodeData.bump (n : NodeData) (result : SimResult) : NodeData :=
  { n with visits := n.visits + 1,
           gradeScore := n.gradeScore + result.gradeScore,
           damageScore := n.damageScore + result.damageScore }

/-- `EvaluationEngine._backpropagate(node, result)`, on generic node data.
The argument is the chain of nodes from the expanded node up to the root
(`path[0]` is the node, `path[k+1]` is `path[k].parent`; the root's parent
is `null`).  The walk is translated verbatim from the source loop

`let parent = node.parent; let current = node;`
`while (current !== null) { bump current; parent = parent.parent; current = parent; }`:

the first iteration bumps `node` and then steps `parent` *twice* away from
`node`, so `node.parent` itself is never bumped; the remaining iterations
bump every node from the grandparent up to the root.  When `node` *is* the
root, `parent` is `null` and `parent.parent` throws a `TypeError`
(`Except.error`). -/
def backpropagate (result : SimResult) : List NodeData → Except Unit (List NodeData)
  | [] => .ok []
  | [_node] => .error ()
  | node :: parent :: rest => .ok (node.bump result :: parent :: rest.map (·.bump result))

/-- A shuffle oracle standing in for `arr.sort(() => Math.random() - 0.5)`
(the theorems assume it permutes its input). -/
def Shuffle : Type := List Card → List Card

/-- The dealing loop of `_determinize`:
`while (newOpponentHand.length < opponent.hand.length && finalPool.length > 0)
 newOpponentHand.push(finalPool.pop());` -/
def dealLoop (targetLen : Nat) (hand pool : List Card) : List Card × List Card :=
  if hand.length < targetLen ∧ pool ≠ [] then
    dealLoop targetLen (hand ++ pool.getLast?.toList) pool.dropLast
  else (hand, pool)
  termination_by pool.length
  decreasing_by
    rename_i h
    have : pool ≠ [] := h.2
    have : 0 < pool.length := List.length_pos.mpr this
    simp [List.length_dropLast]
    omega

/-- `EvaluationEngine._determinize(state)`: keep the opponent's public hand
cards fixed, pool their private hand with their deck, partition that pool
into heal-trigger / other-trigger / pure-sentinel / plain cards, set aside
shuffled per-category quotas covering the deck-composition shortfall
(16 triggers, 4 heals, 4 sentinels minus what the known zones show), merge
the set-aside cards with *all four leftover* pools, shuffle, deal a hand
back to the original hand size and leave the rest as the new deck. -/
def determinize (shuf : Shuffle) (state : Party) : Party :=
  let opponentIndex := otherIdx state.currentPlayerIndex
  let opponent := state.getPlayer opponentIndex
  let publicOpponentCardsInHand := opponent.hand.filter (fun c => c.isPublic)
  let unknownPool := opponent.deck ++ opponent.hand.filter (fun c => !c.isPublic)
  let knownZones : List Card :=
    publicOpponentCardsInHand ++
    (Board.frontRowIds.filterMap (fun cid => opponent.board.get cid)) ++
    (Board.backRowIds.filterMap (fun cid => opponent.board.get cid)) ++
    opponent.dropZone ++ opponent.damageZone ++ opponent.soul
  let knownTriggers := (knownZones.filter (fun c => jsTruthyStr c.trigger)).length
  let knownHeals := (knownZones.filter (fun c => c.trigger == some "Heal")).length
  let knownSentinels := (knownZones.filter (fun c => c.skills.contains "Sentinel")).length
  let requiredTriggers : Nat := 16 - knownTriggers
  let requiredHeals : Nat := 4 - knownHeals
  let requiredSentinels : Nat := 4 - knownSentinels
  let poolHeals := unknownPool.filter (fun c => c.trigger == some "Heal")
  let poolOtherTriggers :=
    unknownPool.filter (fun c => jsTruthyStr c.trigger && c.trigger != some "Heal")
  let poolSentinels :=
    unknownPool.filter (fun c => c.skills.contains "Sentinel" && !jsTruthyStr c.trigger)
  let poolNormals :=
    unknownPool.filter (fun c => !jsTruthyStr c.trigger && !c.skills.contains "Sentinel")
  -- `shuffle(pool).splice(0, k)` removes the first k of the shuffled pool
  -- (a negative k, possible for `requiredTriggers - requiredHeals`, removes
  -- nothing — `Int.toNat` is exactly that clamping)
  let shHeals := shuf poolHeals
  let shOthers := shuf poolOtherTriggers
  let shSentinels := shuf poolSentinels
  let otherQuota : Nat := ((requiredTriggers : Int) - (requiredHeals : Int)).toNat
  let requiredHealCards := shHeals.take requiredHeals
  let requiredOtherTriggerCards := shOthers.take otherQuota
  let requiredSentinelCards := shSentinels.take requiredSentinels
  let finalPool :=
    shHeals.drop requiredHeals ++ shOthers.drop otherQuota ++
    shSentinels.drop requiredSentinels ++ poolNormals ++
    requiredHealCards ++ requiredOtherTriggerCards ++ requiredSentinelCards
  let shuffled := shuf finalPool
  let dealt := dealLoop opponent.hand.length publicOpponentCardsInHand shuffled
  state.setPlayer opponentIndex { opponent with hand := dealt.1, deck := dealt.2 }

/-! ## Helper lemmas about the state accessors -/

@[simp] theorem Party.getPlayer_setPlayer_self (p : Party) (i : Fin 2) (pl : Player) :
    (p.setPlayer i pl).getPlayer i = pl := by
  simp [Party.getPlayer, Party.setPlayer]

theorem Party.getPlayer_setPlayer_ne (p : Party) {i j : Fin 2} (pl : Player) (h : i ≠ j) :
    (p.setPlayer i pl).getPlayer j = p.getPlayer j := by
  simp [Party.getPlayer, Party.setPlayer, Function.update_noteq (Ne.symm h)]

@[simp] theorem Party.currentPlayerIndex_setPlayer (p : Party) (i : Fin 2) (pl : Player) :
    (p.setPlayer i pl).currentPlayerIndex = p.currentPlayerIndex := rfl

@[simp] theorem Party.phase_setPlayer (p : Party) (i : Fin 2) (pl : Player) :
    (p.setPlayer i pl).phase = p.phase := rfl

@[simp] theorem Party.currentBattle_setPlayer (p : Party) (i : Fin 2) (pl : Player) :
    (p.setPlayer i pl).currentBattle = p.currentBattle := rfl

@[simp] theorem Party.eventQueue_setPlayer (p : Party) (i : Fin 2) (pl : Player) :
    (p.setPlayer i pl).eventQueue = p.eventQueue := rfl

@[simp] theorem Party.nextPhase_setPlayer (p : Party) (i : Fin 2) (pl : Player) :
    (p.setPlayer i pl).nextPhase = p.nextPhase := rfl

@[simp] theorem Board.get_set_self (b : Board) (c : CircleId) (u : Option Card) :
    (b.set c u).get c = u := by
  cases c <;> rfl

theorem otherIdx_ne (i : Fin 2) : otherIdx i ≠ i := by
  fin_cases i <;> decide

theorem Board.board_closeStepFinish (p : Party) (j : Fin 2) :
    ((closeStepFinish p).getPlayer j).board = (p.getPlayer j).board := by
  unfold closeStepFinish Party.setPlayer Party.getPlayer
  dsimp only
  split <;>
  · by_cases hj : otherIdx p.currentPlayerIndex = j
    · subst hj
      simp
    · simp [Function.update_noteq (Ne.symm hj)]

/-! ## Claim theorems -/

deriving instance DecidableEq for Except

/-- C5: backpropagation is claimed to bump visits and both sub-scores on
*every* node from the expanded node back to the root.  The source loop
instead skips the expanded node's direct parent: on a node→parent→root
chain the parent keeps its counters, and on a depth-1 chain the root keeps
its counters; a chain consisting of the root alone even throws
(`parent.parent` on `null`). -/
theorem c5_backprop_skips_parent :
    backpropagate { gradeScore := 1/2, damageScore := 1/3 }
        [{ visits := 0 }, { visits := 0 }, { visits := 0 }] =
      .ok [{ visits := 1, gradeScore := 1/2, damageScore := 1/3 },
           { visits := 0 },
           { visits := 1, gradeScore := 1/2, damageScore := 1/3 }] ∧
    backpropagate { gradeScore := 1/2, damageScore := 1/3 }
        [{ visits := 5 }, { visits := 7 }] =
      .ok [{ visits := 6, gradeScore := 1/2, damageScore := 1/3 }, { visits := 7 }] ∧
    backpropagate { gradeScore := 1/2, damageScore := 1/3 } [{ visits := 3 }] = .error () := by
  refine ⟨?_, ?_, ?_⟩ <;> simp [backpropagate, NodeData.bump]

/-- A unit card for the battle-resolution probes. -/
def closeUnit (uid : Nat) (pw : Int) : Card :=
  { uniqueId := uid, id := "cp", name := "CP", grade := some 1, power := some pw }

/-- A state in which player 0's R1 unit has attacked player 1's R1 unit
with the given recorded power, with an empty guardian zone. -/
def closeProbe (apow tpow : Int) : Party :=
  { players := fun i =>
      if i = 0 then { board := { R1 := some (closeUnit 1 apow) } }
      else { board := { R1 := some (closeUnit 2 tpow) } },
    currentPlayerIndex := 0,
    phase := "drive_check",
    currentBattle := some { attackerCircle := .R1, targetCircle := .R1, attackerPower := apow } }

/-- Whether `applyCloseStep` (without a readline interface) retired the
target unit, i.e. whether the attack hit a rear-guard. -/
def closeStepHitObserved (s : Party) : Option Bool :=
  match s.currentBattle with
  | none => none
  | some b =>
    match applyCloseStep s none with
    | .ok r => some ((r.getPlayer (otherIdx s.currentPlayerIndex)).board.get b.targetCircle).isNone
    | .error _ => none

/-- C3: in `applyCloseStep` the attack hits — observable on a rear-guard
target as the circle being emptied — iff the recorded attacker power is at
least the target's power plus bonus power plus the summed guardian-zone
shields; in particular 12000 vs 11000 (no shield) hits, 10000 vs 11000 does
not, and the 11000 vs 11000 boundary hits. -/
theorem c3_close_step_hit_iff :
    (∀ (s : Party) (rl : Option Oracle) (b : Battle) (tu : Card),
        s.currentBattle = some b →
        b.targetCircle ≠ CircleId.V →
        (s.getPlayer (otherIdx s.currentPlayerIndex)).board.get b.targetCircle = some tu →
        ∃ r, applyCloseStep s rl = .ok r ∧
          (((r.getPlayer (otherIdx s.currentPlayerIndex)).board.get b.targetCircle = none) ↔
            b.attackerPower ≥
              tu.power.getD 0 + tu.bonusPower +
              ((s.getPlayer (otherIdx s.currentPlayerIndex)).guardianZone.map
                (fun c => c.shield.getD 0)).sum)) ∧
    closeStepHitObserved (closeProbe 12000 11000) = some true ∧
    closeStepHitObserved (closeProbe 10000 11000) = some false ∧
    closeStepHitObserved (closeProbe 11000 11000) = some true := by
  refine ⟨?_, by decide, by decide, by decide⟩
  intro s rl b tu hb hne hget
  unfold applyCloseStep
  rw [hb]
  dsimp only
  rw [hget]
  dsimp only
  by_cases hhit : b.attackerPower ≥
      tu.power.getD 0 + tu.bonusPower +
      ((s.getPlayer (otherIdx s.currentPlayerIndex)).guardianZone.map
        (fun c => c.shield.getD 0)).sum
  · rw [if_pos hhit, if_neg hne]
    refine ⟨_, rfl, ?_⟩
    rw [Board.board_closeStepFinish]
    simp [Party.getPlayer_setPlayer_self, hhit]
  · rw [if_neg hhit]
    refine ⟨_, rfl, ?_⟩
    rw [Board.board_closeStepFinish]
    simp [hget, hhit]

theorem foldl_append_if_eq_filter_map (l : List α) (p : α → Bool) (g : α → β) :
    ∀ acc : List β,
      l.foldl (fun acc a => if p a then acc ++ [g a] else acc) acc =
        acc ++ (l.filter p).map g := by
  induction l with
  | nil => intro acc; simp
  | cons a rest ih =>
    intro acc
    by_cases hp : p a <;> simp [hp, ih, List.append_assoc]

/-- Recognizer for `GUARD` actions. -/
def isGuardA : GameAction → Bool
  | .guard _ => true
  | _ => false

/-- Recognizer for `INTERCEPT` actions. -/
def isInterceptA : GameAction → Bool
  | .intercept _ _ => true
  | _ => false

/-- Recognizer for `PASS_GUARD_STEP`. -/
def isPassGuardA : GameAction → Bool
  | .passGuardStep => true
  | _ => false

/-- C9: in phase `guard` the generator dispatches to `getGuardActions`,
which contains exactly one `PASS_GUARD_STEP`, exactly one `GUARD` per
defending hand card with a numeric shield, exactly one `INTERCEPT` per
occupied, untapped, `Intercept`-skilled front-row circle of the defender,
and nothing else. -/
theorem c9_guard_generator (s : Party) (hphase : s.phase = "guard") :
    getPossibleActions s = .ok (getGuardActions s) ∧
    (getGuardActions s).countP isPassGuardA = 1 ∧
    (getGuardActions s).countP isGuardA =
      (s.getPlayer (otherIdx s.currentPlayerIndex)).hand.countP (fun c => c.shield.isSome) ∧
    (getGuardActions s).countP isInterceptA =
      Board.frontRowIds.countP (fun cid =>
        match (s.getPlayer (otherIdx s.currentPlayerIndex)).board.get cid with
        | some u => !u.isResting && u.skills.contains "Intercept"
        | none => false) ∧
    ∀ a ∈ getGuardActions s, isGuardA a ∨ isInterceptA a ∨ a = .passGuardStep := by
  have hdisp : getPossibleActions s = .ok (getGuardActions s) := by
    unfold getPossibleActions
    rw [hphase]
    simp
  have hguards :
      getGuardActions s =
        ((s.getPlayer (otherIdx s.currentPlayerIndex)).hand.filter
            (fun c => c.shield.isSome)).map (fun c => GameAction.guard c.uniqueId) ++
        (Board.frontRowIds.filter (fun cid =>
            match (s.getPlayer (otherIdx s.currentPlayerIndex)).board.get cid with
            | some u => !u.isResting && u.skills.contains "Intercept"
            | none => false)).map (fun cid =>
              match (s.getPlayer (otherIdx s.currentPlayerIndex)).board.get cid with
              | some u => GameAction.intercept u.uniqueId cid.cname
              | none => GameAction.intercept 0 cid.cname) ++
        [GameAction.passGuardStep] := by
    unfold getGuardActions
    dsimp only
    rw [foldl_append_if_eq_filter_map]
    simp
  refine ⟨hdisp, ?_, ?_, ?_, ?_⟩
  · rw [hguards]
    simp only [List.countP_append, List.countP_map]
    have h1 : ∀ l : List Card,
        l.countP (isPassGuardA ∘ fun c => GameAction.guard c.uniqueId) = 0 := by
      intro l
      apply List.countP_eq_zero.mpr
      intro c _
      simp [isPassGuardA, Function.comp]
    have h2 : ∀ l : List CircleId,
        l.countP (isPassGuardA ∘ fun cid =>
          match (s.getPlayer (otherIdx s.currentPlayerIndex)).board.get cid with
          | some u => GameAction.intercept u.uniqueId cid.cname
          | none => GameAction.intercept 0 cid.cname) = 0 := by
      intro l
      apply List.countP_eq_zero.mpr
      intro cid _
      rcases hget : (s.getPlayer (otherIdx s.currentPlayerIndex)).board.get cid with _ | u <;>
        simp [isPassGuardA, Function.comp, hget]
    rw [h1, h2]
    simp [isPassGuardA]
  · rw [hguards]
    simp only [List.countP_append, List.countP_map]
    have h1 : ((s.getPlayer (otherIdx s.currentPlayerIndex)).hand.filter
        (fun c => c.shield.isSome)).countP
          (isGuardA ∘ fun c => GameAction.guard c.uniqueId) =
        ((s.getPlayer (otherIdx s.currentPlayerIndex)).hand.filter
          (fun c => c.shield.isSome)).length := by
      apply List.countP_eq_length.mpr
      intro c _
      simp [isGuardA, Function.comp]
    have h2 : ∀ l : List CircleId,
        l.countP (isGuardA ∘ fun cid =>
          match (s.getPlayer (otherIdx s.currentPlayerIndex)).board.get cid with
          | some u => GameAction.intercept u.uniqueId cid.cname
          | none => GameAction.intercept 0 cid.cname) = 0 := by
      intro l
      apply List.countP_eq_zero.mpr
      intro cid _
      rcases hget : (s.getPlayer (otherIdx s.currentPlayerIndex)).board.get cid with _ | u <;>
        simp [isGuardA, Function.comp, hget]
    rw [h1, h2]
    simp [isGuardA, List.countP_eq_length_filter]
  · rw [hguards]
    simp only [List.countP_append, List.countP_map]
    have h1 : ∀ l : List Card,
        l.countP (isInterceptA ∘ fun c => GameAction.guard c.uniqueId) = 0 := by
      intro l
      apply List.countP_eq_zero.mpr
      intro c _
      simp [isInterceptA, Function.comp]
    have h2 : (Board.frontRowIds.filter (fun cid =>
        match (s.getPlayer (otherIdx s.currentPlayerIndex)).board.get cid with
        | some u => !u.isResting && u.skills.contains "Intercept"
        | none => false)).countP
          (isInterceptA ∘ fun cid =>
            match (s.getPlayer (otherIdx s.currentPlayerIndex)).board.get cid with
            | some u => GameAction.intercept u.uniqueId cid.cname
            | none => GameAction.intercept 0 cid.cname) =
        (Board.frontRowIds.filter (fun cid =>
          match (s.getPlayer (otherIdx s.currentPlayerIndex)).board.get cid with
          | some u => !u.isResting && u.skills.contains "Intercept"
          | none => false)).length := by
      apply List.countP_eq_length.mpr
      intro cid _
      rcases hget : (s.getPlayer (otherIdx s.currentPlayerIndex)).board.get cid with _ | u <;>
        simp [isInterceptA, Function.comp, hget]
    rw [h1, h2]
    simp [isInterceptA, List.countP_eq_length_filter]
  · rw [hguards]
    intro a ha
    rcases List.mem_append.mp ha with ha | ha
    · rcases List.mem_append.mp ha with ha | ha
      · rcases List.mem_map.mp ha with ⟨c, _, rfl⟩
        left
        rfl
      · rcases List.mem_map.mp ha with ⟨cid, _, rfl⟩
        right; left
        rcases (s.getPlayer (otherIdx s.currentPlayerIndex)).board.get cid with _ | u <;> rfl
    · right; right
      simpa using ha

theorem foldl_append_if_list_eq_filter_flatMap (l : List α) (p : α → Bool) (g : α → List β) :
    ∀ acc : List β,
      l.foldl (fun acc a => if p a then acc ++ g a else acc) acc =
        acc ++ (l.filter p).flatMap g := by
  induction l with
  | nil => intro acc; simp
  | cons a rest ih =>
    intro acc
    by_cases hp : p a <;> simp [hp, ih, List.append_assoc]

/-- C10: the main-phase generator emits `CALL` actions that carry a card
instance id and a circle tag but *no* `cardIndexInHand`; on such an action
`applyCall`'s bounds check (two `NaN` comparisons) does not reject, and
`splice(undefined, 1)` always removes hand position 0 — the card placed on
the target circle is the head of the hand regardless of the action's
`cardInstanceId`. -/
theorem c10_call_ignores_instance_id :
    (∀ (s : Party) (a : GameAction),
        a ∈ getCallActions s (s.getPlayer s.currentPlayerIndex) →
        ∃ uid tag, a = .call none (some uid) tag) ∧
    (∀ (fuel : Nat) (shuf : List Card → List Card) (s : Party) (instId : Option Nat)
        (tag : String) (cid : CircleId) (c : Card) (rest : List Card),
        Board.getCircleId tag = .ok cid →
        (s.getPlayer s.currentPlayerIndex).hand = c :: rest →
        applyAction fuel shuf s (.call none instId tag) =
          some (.ok (s.setPlayer s.currentPlayerIndex
            { s.getPlayer s.currentPlayerIndex with
              hand := rest,
              dropZone :=
                (match (s.getPlayer s.currentPlayerIndex).board.get cid with
                 | some u => (s.getPlayer s.currentPlayerIndex).dropZone ++ [u]
                 | none => (s.getPlayer s.currentPlayerIndex).dropZone),
              board := (s.getPlayer s.currentPlayerIndex).board.set cid (some c) }, s))) := by
  constructor
  · intro s a ha
    unfold getCallActions at ha
    rcases hv : (s.getPlayer s.currentPlayerIndex).board.get .V with _ | vg
    · rw [hv] at ha
      simp at ha
    · rw [hv] at ha
      dsimp only at ha
      rw [foldl_append_if_list_eq_filter_flatMap] at ha
      simp only [List.nil_append, List.mem_flatMap, List.mem_filter, List.mem_map] at ha
      rcases ha with ⟨card, _, circle, _, rfl⟩
      exact ⟨card.uniqueId, circle.cname, rfl⟩
  · intro fuel shuf s instId tag cid c rest hcid hhand
    have happ : applyCall s none tag =
        .ok (.fresh (s.setPlayer s.currentPlayerIndex
          { s.getPlayer s.currentPlayerIndex with
            hand := rest,
            dropZone :=
              (match (s.getPlayer s.currentPlayerIndex).board.get cid with
               | some u => (s.getPlayer s.currentPlayerIndex).dropZone ++ [u]
               | none => (s.getPlayer s.currentPlayerIndex).dropZone),
            board := (s.getPlayer s.currentPlayerIndex).board.set cid (some c) })) := by
      unfold applyCall
      dsimp only
      rw [hcid, hhand]
      simp [jsLtB, jsGeB]
    unfold applyAction
    dsimp only
    rw [happ]

/-- A minimal guard-phase state (both players empty). -/
def guardProbe : Party :=
  { players := fun _ => {}, currentPlayerIndex := 0, phase := "guard" }

theorem c9_guard_generator_witness :
    (getGuardActions guardProbe).countP isPassGuardA = 1 :=
  (c9_guard_generator guardProbe rfl).2.1

/-- A hand card for the `CALL` probe. -/
def probeHandCard : Card :=
  { uniqueId := 9, id := "h", name := "H", grade := some 0, power := some 5000 }

/-- A main-phase state whose active player holds exactly one hand card. -/
def callProbe : Party :=
  { players := fun _ => { hand := [probeHandCard] }, currentPlayerIndex := 0, phase := "main" }

theorem c10_call_ignores_instance_id_witness :
    ∃ out, applyAction 0 id callProbe (.call none (some 42) "R1") = some (.ok out) :=
  ⟨_, c10_call_ignores_instance_id.2 0 id callProbe (some 42) "R1" .R1 probeHandCard []
    (by decide) rfl⟩

theorem c3_close_step_hit_iff_witness :
    ∃ r, applyCloseStep (closeProbe 12000 11000) none = .ok r ∧
      (((r.getPlayer (otherIdx (closeProbe 12000 11000).currentPlayerIndex)).board.get
          CircleId.R1 = none) ↔
        (12000 : Int) ≥
          (closeUnit 2 11000).power.getD 0 + (closeUnit 2 11000).bonusPower +
          (((closeProbe 12000 11000).getPlayer
              (otherIdx (closeProbe 12000 11000).currentPlayerIndex)).guardianZone.map
            (fun c => c.shield.getD 0)).sum) :=
  c3_close_step_hit_iff.1 (closeProbe 12000 11000) none
    { attackerCircle := .R1, targetCircle := .R1, attackerPower := 12000 }
    (closeUnit 2 11000) rfl (by decide) (by decide)

/-- C6: when the head event has a mandatory pending effect, `processEvents`
removes exactly one entry — the first mandatory one — from the pending list
*before* invoking its registry procedure: the state handed to the procedure
already lacks the effect being resolved (one occurrence fewer, one entry
shorter). -/
theorem c6_pop_then_invoke (n : Nat) (s : Party) (ev : Event) (rest : List Event)
    (pending : List PendingEffect) (e : PendingEffect) (es : List PendingEffect)
    (hq : s.eventQueue = ev :: rest)
    (hp : ev.pendingEffects = some pending)
    (he : pending.filter (fun p => p.effect.mandatory) = e :: es) :
    processEvents (n + 1) s =
      (match effectLibrary.get? e.effect.function_index with
       | none => some (.error ())
       | some f =>
         match f (updateHeadPending s (pending.erase e)) e.eventPayload with
         | .error u => some (.error u)
         | .ok s3 => processEvents n s3) ∧
    (pending.erase e).length + 1 = pending.length ∧
    (pending.erase e).count e + 1 = pending.count e := by
  have hmem : e ∈ pending := by
    have : e ∈ pending.filter (fun p => p.effect.mandatory) := by
      rw [he]
      exact List.mem_cons_self _ _
    exact List.mem_of_mem_filter this
  refine ⟨?_, ?_, ?_⟩
  · conv_lhs => unfold processEvents
    rw [hq]
    dsimp only
    rw [hp]
    dsimp only
    rw [he]
  · have := List.length_erase_of_mem hmem
    have hpos : 0 < pending.length := List.length_pos.mpr (List.ne_nil_of_mem hmem)
    omega
  · have := List.count_erase_self e pending
    have hpos : 0 < pending.count e := List.count_pos_iff.mpr hmem
    omega

/-- A mandatory `on_ride` effect entry bound to registry procedure 2. -/
def c6Effect : EffectDef :=
  { trigger := "on_ride", zone := none, condition := .undef, mandatory := true,
    is_act := false, once_per_turn := false, function_index := 2, costEnergy := none }

/-- A collected pending entry for `c6Effect`. -/
def c6Pending : PendingEffect :=
  { cardName := "EG", cardId := "eg", effect := c6Effect,
    eventPayload := { type_ := "ON_RIDE", target := none } }

/-- A state whose head event has `c6Pending` as its only pending effect. -/
def c6Probe : Party :=
  { players := fun _ => {},
    eventQueue := [{ type_ := "ON_RIDE", target := none, pendingEffects := some [c6Pending] }] }

theorem c6_pop_then_invoke_witness :
    ([c6Pending].erase c6Pending).length + 1 = ([c6Pending] : List PendingEffect).length :=
  (c6_pop_then_invoke 1 c6Probe
    { type_ := "ON_RIDE", target := none, pendingEffects := some [c6Pending] } []
    [c6Pending] c6Pending [] rfl rfl (by decide)).2.1

theorem dealLoop_perm (t : Nat) :
    ∀ (n : Nat) (p h : List Card), p.length ≤ n →
      ((dealLoop t h p).1 ++ (dealLoop t h p).2).Perm (h ++ p) := by
  intro n
  induction n with
  | zero =>
    intro p h hl
    have hp : p = [] := List.eq_nil_of_length_eq_zero (Nat.le_zero.mp hl)
    subst hp
    rw [dealLoop]
    simp
  | succ n ih =>
    intro p h hl
    rw [dealLoop]
    split
    · rename_i hcond
      have hne : p ≠ [] := hcond.2
      have hdl : p.dropLast.length ≤ n := by
        have := List.length_dropLast p
        have : 0 < p.length := List.length_pos.mpr hne
        simp [List.length_dropLast]
        omega
      refine (ih _ _ hdl).trans ?_
      rw [List.getLast?_eq_getLast p hne]
      have hsplit : p.dropLast ++ [p.getLast hne] = p := List.dropLast_append_getLast hne
      refine Multiset.coe_eq_coe.mp ?_
      conv_rhs => rw [← hsplit]
      simp only [Option.toList, ← Multiset.coe_add, Multiset.coe_singleton]
      abel
    · exact List.Perm.refl _

theorem assembly_perm (shuf : Shuffle) (hshuf : ∀ l, (shuf l).Perm l)
    (pH pO pS pN : List Card) (kH kO kS : Nat) :
    ((shuf pH).drop kH ++ (shuf pO).drop kO ++ (shuf pS).drop kS ++ pN ++
     (shuf pH).take kH ++ (shuf pO).take kO ++ (shuf pS).take kS).Perm
      (pH ++ pO ++ pS ++ pN) := by
  refine Multiset.coe_eq_coe.mp ?_
  have hpc : ∀ l k, ((shuf l).take k : Multiset Card) + ((shuf l).drop k : Multiset Card) =
      (l : Multiset Card) := by
    intro l k
    rw [Multiset.coe_add, List.take_append_drop]
    exact Multiset.coe_eq_coe.mpr (hshuf l)
  simp only [← Multiset.coe_add]
  rw [← hpc pH kH, ← hpc pO kO, ← hpc pS kS]
  abel

theorem four_pool_partition (pool : List Card) :
    (pool.filter (fun c => c.trigger == some "Heal") ++
     pool.filter (fun c => jsTruthyStr c.trigger && c.trigger != some "Heal") ++
     pool.filter (fun c => c.skills.contains "Sentinel" && !jsTruthyStr c.trigger) ++
     pool.filter (fun c => !jsTruthyStr c.trigger && !c.skills.contains "Sentinel")).Perm
      pool := by
  have hT : ∀ c : Card, (c.trigger == some "Heal") = true → jsTruthyStr c.trigger = true := by
    intro c hc
    have : c.trigger = some "Heal" := by simpa using hc
    rw [this]
    decide
  have e1 : (pool.filter (fun c => jsTruthyStr c.trigger)).filter
      (fun c => c.trigger == some "Heal") = pool.filter (fun c => c.trigger == some "Heal") := by
    rw [List.filter_filter]
    apply List.filter_congr
    intro c _
    by_cases hc : (c.trigger == some "Heal") = true
    · simp [hc, hT c hc]
    · simp [hc]
  have e2 : (pool.filter (fun c => jsTruthyStr c.trigger)).filter
      (fun c => !(c.trigger == some "Heal")) =
      pool.filter (fun c => jsTruthyStr c.trigger && c.trigger != some "Heal") := by
    rw [List.filter_filter]
    apply List.filter_congr
    intro c _
    cases hjs : jsTruthyStr c.trigger <;> cases hc : (c.trigger == some "Heal") <;>
      simp [bne, hjs, hc]
  have e3 : (pool.filter (fun c => !jsTruthyStr c.trigger)).filter
      (fun c => c.skills.contains "Sentinel") =
      pool.filter (fun c => c.skills.contains "Sentinel" && !jsTruthyStr c.trigger) := by
    rw [List.filter_filter]
  have e4 : (pool.filter (fun c => !jsTruthyStr c.trigger)).filter
      (fun c => !c.skills.contains "Sentinel") =
      pool.filter (fun c => !jsTruthyStr c.trigger && !c.skills.contains "Sentinel") := by
    rw [List.filter_filter]
    apply List.filter_congr
    intro c _
    cases hjs : jsTruthyStr c.trigger <;> cases hs : c.skills.contains "Sentinel" <;>
      simp [hjs, hs]
  have h2 := List.filter_append_perm (fun c => c.trigger == some "Heal")
    (pool.filter (fun c => jsTruthyStr c.trigger))
  have h3 := List.filter_append_perm (fun c => c.skills.contains "Sentinel")
    (pool.filter (fun c => !jsTruthyStr c.trigger))
  rw [e1, e2] at h2
  rw [e3, e4] at h3
  have hassoc : (pool.filter (fun c => c.trigger == some "Heal") ++
        pool.filter (fun c => jsTruthyStr c.trigger && c.trigger != some "Heal") ++
        pool.filter (fun c => c.skills.contains "Sentinel" && !jsTruthyStr c.trigger) ++
        pool.filter (fun c => !jsTruthyStr c.trigger && !c.skills.contains "Sentinel"))
      = (pool.filter (fun c => c.trigger == some "Heal") ++
         pool.filter (fun c => jsTruthyStr c.trigger && c.trigger != some "Heal")) ++
        (pool.filter (fun c => c.skills.contains "Sentinel" && !jsTruthyStr c.trigger) ++
         pool.filter (fun c => !jsTruthyStr c.trigger && !c.skills.contains "Sentinel")) := by
    simp [List.append_assoc]
  rw [hassoc]
  exact (h2.append h3).trans (List.filter_append_perm _ pool)

theorem public_private_perm (hand deck : List Card) :
    (hand.filter (fun c => c.isPublic) ++
     (deck ++ hand.filter (fun c => !c.isPublic))).Perm (hand ++ deck) := by
  refine Multiset.coe_eq_coe.mp ?_
  have hp : (↑(hand.filter (fun c => c.isPublic)) : Multiset Card) +
      ↑(hand.filter (fun c => !c.isPublic)) = ↑hand := by
    rw [Multiset.coe_add]
    exact Multiset.coe_eq_coe.mpr (List.filter_append_perm _ hand)
  simp only [← Multiset.coe_add]
  rw [← hp]
  abel

theorem determinize_hand_deck_perm (shuf : Shuffle) (hshuf : ∀ l, (shuf l).Perm l) (s : Party) :
    (((determinize shuf s).getPlayer (otherIdx s.currentPlayerIndex)).hand ++
     ((determinize shuf s).getPlayer (otherIdx s.currentPlayerIndex)).deck).Perm
      ((s.getPlayer (otherIdx s.currentPlayerIndex)).hand ++
       (s.getPlayer (otherIdx s.currentPlayerIndex)).deck) := by
  unfold determinize
  dsimp only
  rw [Party.getPlayer_setPlayer_self]
  dsimp only
  refine (dealLoop_perm _ _ _ _ le_rfl).trans ?_
  refine (List.Perm.append_left _
    ((hshuf _).trans ((assembly_perm shuf hshuf _ _ _ _ _ _ _).trans
      (four_pool_partition _)))).trans ?_
  exact public_private_perm _ _

/-- Heal-trigger cards in a zone list. -/
def countHeal (l : List Card) : Nat := l.countP (fun c => c.trigger == some "Heal")

/-- Trigger cards (of any kind) in a zone list. -/
def countTrig (l : List Card) : Nat := l.countP (fun c => jsTruthyStr c.trigger)

/-- `Sentinel`-skilled cards in a zone list. -/
def countSent (l : List Card) : Nat := l.countP (fun c => c.skills.contains "Sentinel")

/-- Every card zone of a player other than hand and deck. -/
def otherZones (pl : Player) : List Card :=
  (Board.frontRowIds.filterMap pl.board.get) ++ (Board.backRowIds.filterMap pl.board.get) ++
  pl.dropZone ++ pl.damageZone ++ pl.soul ++ pl.rideDeck ++ pl.gZone ++ pl.bindZone ++
  pl.guardianZone ++ pl.triggerZone ++ pl.crestZone ++ pl.orderZone

/-- All card zones of a player. -/
def allZones (pl : Player) : List Card := pl.hand ++ pl.deck ++ otherZones pl

/-- C7: for any state whose opponent-side zones hold exactly 16 trigger
cards, 4 heal triggers, and 4 Sentinel cards, and any determinization (any
permutation-valued shuffle), the determinized opponent hand plus deck
together with the untouched other zones still hold exactly those totals. -/
theorem c7_determinize_conservation (shuf : Shuffle) (hshuf : ∀ l, (shuf l).Perm l) (s : Party)
    (hHeal : countHeal (allZones (s.getPlayer (otherIdx s.currentPlayerIndex))) = 4)
    (hTrig : countTrig (allZones (s.getPlayer (otherIdx s.currentPlayerIndex))) = 16)
    (hSent : countSent (allZones (s.getPlayer (otherIdx s.currentPlayerIndex))) = 4) :
    countHeal (((determinize shuf s).getPlayer (otherIdx s.currentPlayerIndex)).hand ++
        ((determinize shuf s).getPlayer (otherIdx s.currentPlayerIndex)).deck) +
      countHeal (otherZones ((determinize shuf s).getPlayer (otherIdx s.currentPlayerIndex))) =
        4 ∧
    countTrig (((determinize shuf s).getPlayer (otherIdx s.currentPlayerIndex)).hand ++
        ((determinize shuf s).getPlayer (otherIdx s.currentPlayerIndex)).deck) +
      countTrig (otherZones ((determinize shuf s).getPlayer (otherIdx s.currentPlayerIndex))) =
        16 ∧
    countSent (((determinize shuf s).getPlayer (otherIdx s.currentPlayerIndex)).hand ++
        ((determinize shuf s).getPlayer (otherIdx s.currentPlayerIndex)).deck) +
      countSent (otherZones ((determinize shuf s).getPlayer (otherIdx s.currentPlayerIndex))) =
        4 := by
  have hperm := determinize_hand_deck_perm shuf hshuf s
  have hother :
      otherZones ((determinize shuf s).getPlayer (otherIdx s.currentPlayerIndex)) =
        otherZones (s.getPlayer (otherIdx s.currentPlayerIndex)) := by
    unfold determinize
    dsimp only
    rw [Party.getPlayer_setPlayer_self]
    rfl
  have hsplit : ∀ f : Card → Bool,
      (allZones (s.getPlayer (otherIdx s.currentPlayerIndex))).countP f =
        ((s.getPlayer (otherIdx s.currentPlayerIndex)).hand ++
          (s.getPlayer (otherIdx s.currentPlayerIndex)).deck).countP f +
        (otherZones (s.getPlayer (otherIdx s.currentPlayerIndex))).countP f := by
    intro f
    unfold allZones
    rw [List.append_assoc, List.countP_append, List.countP_append, List.countP_append]
    omega
  refine ⟨?_, ?_, ?_⟩
  · rw [hother]
    unfold countHeal at hHeal ⊢
    rw [hperm.countP_eq, ← hsplit, hHeal]
  · rw [hother]
    unfold countTrig at hTrig ⊢
    rw [hperm.countP_eq, ← hsplit, hTrig]
  · rw [hother]
    unfold countSent at hSent ⊢
    rw [hperm.countP_eq, ← hsplit, hSent]

/-- A non-heal trigger card for the determinizer probe. -/
def c7Trig (uid : Nat) : Card := { uniqueId := uid, trigger := some "Critical" }

/-- A heal trigger card for the determinizer probe. -/
def c7Heal (uid : Nat) : Card := { uniqueId := uid, trigger := some "Heal" }

/-- A sentinel card for the determinizer probe. -/
def c7Sent (uid : Nat) : Card := { uniqueId := uid, skills := ["Sentinel"] }

/-- A plain card for the determinizer probe. -/
def c7Plain (uid : Nat) : Card := { uniqueId := uid }

/-- An opponent whose zones hold exactly 16 triggers (4 of them heals) and
4 sentinels. -/
def c7Opp : Player :=
  { deck := (List.range 12).map c7Trig ++ (List.range 4).map (fun k => c7Heal (100 + k)) ++
      (List.range 4).map (fun k => c7Sent (200 + k)) ++ [c7Plain 300],
    hand := [c7Plain 301] }

/-- A state whose opponent is `c7Opp`. -/
def c7Probe : Party :=
  { players := fun i => if i = 0 then {} else c7Opp, currentPlayerIndex := 0 }

theorem c7_determinize_conservation_witness :
    countHeal (((determinize id c7Probe).getPlayer (otherIdx c7Probe.currentPlayerIndex)).hand ++
        ((determinize id c7Probe).getPlayer (otherIdx c7Probe.currentPlayerIndex)).deck) +
      countHeal (otherZones ((determinize id c7Probe).getPlayer
        (otherIdx c7Probe.currentPlayerIndex))) = 4 :=
  (c7_determinize_conservation id (fun l => List.Perm.refl l) c7Probe
    (by decide) (by decide) (by decide)).1

theorem evaluateCondition_falsy (c : JSVal) (party : Party) (hf : jsFalsy c = true) :
    evaluateCondition c party = .ok true := by
  rw [evaluateCondition]
  simp [hf]

theorem evalConditionLeaf_str (s : List Char) (party : Party) :
    evalConditionLeaf (.str s) party = .ok false := by
  unfold evalConditionLeaf
  by_cases h3 : (JSVal.str s).jsLength = some 3
  · rw [if_pos h3]
    have hlen : s.length = 3 := by simpa [JSVal.jsLength] using h3
    rcases s with _ | ⟨a, s⟩
    · simp at hlen
    rcases s with _ | ⟨b, s⟩
    · simp at hlen
    rcases s with _ | ⟨c, s⟩
    · simp at hlen
    rcases s with _ | ⟨d, s⟩
    · simp [JSVal.jsIndex, String.toList]
    · simp at hlen
  · rw [if_neg h3]

theorem evaluateCondition_str_singleton (c : Char) (party : Party) :
    evaluateCondition (.str [c]) party = .ok false := by
  rw [evaluateCondition]
  simp [jsFalsy, jsIncludes, strIncludesB, isPrefixCharB, String.toList,
    evalConditionLeaf_str]

theorem evaluateCondition_str_nonempty (a : Char) (t : List Char) (party : Party) :
    evaluateCondition (.str (a :: t)) party = .ok false := by
  rw [evaluateCondition]
  have hf : jsFalsy (.str (a :: t)) = false := by simp [jsFalsy]
  rw [hf]
  dsimp only [jsIncludes]
  by_cases hcomp : (strIncludesB "and".toList (a :: t) || strIncludesB "or".toList (a :: t))
  · rw [dif_pos hcomp]
    have h0 : (JSVal.str (a :: t)).jsIndex 0 = .str [a] := by simp [JSVal.jsIndex]
    rw [h0, evaluateCondition_str_singleton]
    have h2ok : ∃ v, evaluateCondition ((JSVal.str (a :: t)).jsIndex 2) party = .ok v := by
      rcases hd : (a :: t).drop 2 with _ | ⟨c2, t2⟩
      · exact ⟨true, by simp [JSVal.jsIndex, hd, evaluateCondition_falsy, jsFalsy]⟩
      · exact ⟨false, by simp [JSVal.jsIndex, hd, evaluateCondition_str_singleton]⟩
    obtain ⟨v2, hv2⟩ := h2ok
    rw [hv2]
    dsimp only
    have hop : ∀ pat : List Char, 2 ≤ pat.length →
        ¬((JSVal.str (a :: t)).jsIndex 1 = .str pat) := by
      intro pat hpat hcontra
      rcases hd : (a :: t).drop 1 with _ | ⟨c1, t1⟩
      · simp [JSVal.jsIndex, hd] at hcontra
      · simp only [JSVal.jsIndex, hd, JSVal.str.injEq] at hcontra
        rw [← hcontra] at hpat
        simp at hpat
    rw [if_neg (hop "and".toList (by decide)), if_neg (hop "or".toList (by decide))]
    exact evalConditionLeaf_str _ party
  · rw [dif_neg hcomp]
    exact evalConditionLeaf_str _ party

/-- A well-formed leaf as the claim describes it, matched against what the
code accepts: a 3-element value whose field position is a string and whose
operator is one of the four supported ones. -/
def wfLeaf (c : JSVal) : Bool :=
  (c.jsLength == some 3) &&
  (match c.jsIndex 0 with | .str _ => true | _ => false) &&
  (c.jsIndex 1 == .str "===".toList || c.jsIndex 1 == .str "!==".toList ||
   c.jsIndex 1 == .str ">=".toList || c.jsIndex 1 == .str "<=".toList)

/-- A well-formed `and`/`or` composite as the code accepts it: the element
at position 1 is `'and'` or `'or'` (the composite branch then returns). -/
def wfComposite (c : JSVal) : Bool :=
  c.jsIndex 1 == .str "and".toList || c.jsIndex 1 == .str "or".toList

/-- Conditions whose leaf branch cannot throw: if the length-3 branch is
reachable, position 0 holds a string (so `field.split` exists). -/
def leafSafeB (c : JSVal) : Bool :=
  if c.jsLength == some 3 then
    (match c.jsIndex 0 with | .str _ => true | _ => false)
  else true

/-- The throw-free fragment of the condition language: falsy values and
strings are safe; an array is safe when the positions the evaluator
recurses into are safe and its leaf branch (when reachable) has a string
field; any other truthy value makes `.includes` throw. -/
def condSafe (c : JSVal) : Bool :=
  if jsFalsy c then true
  else
    match c with
    | .str _ => true
    | .arr l =>
      if hcomp : (l.contains (.str "and".toList) || l.contains (.str "or".toList)) then
        condSafe ((JSVal.arr l).jsIndex 0) && condSafe ((JSVal.arr l).jsIndex 2) &&
          (if wfComposite (.arr l) then true else leafSafeB (.arr l))
      else leafSafeB (.arr l)
    | _ => false
termination_by c.sz
decreasing_by
  all_goals {
    rcases Bool.or_eq_true _ _ ▸ hcomp with h | h
    · exact @sz_jsIndex_lt_of_includes (JSVal.arr l) ("and".toList) _
        (by simp only [jsIncludes, h]) (by decide)
    · exact @sz_jsIndex_lt_of_includes (JSVal.arr l) ("or".toList) _
        (by simp only [jsIncludes, h]) (by decide)
  }

theorem evalConditionLeaf_spec (c : JSVal) (party : Party) (hsafe : leafSafeB c = true) :
    ∃ v, evalConditionLeaf c party = .ok v ∧ (wfLeaf c = false → v = false) := by
  unfold evalConditionLeaf
  by_cases h3 : c.jsLength = some 3
  · rw [if_pos h3]
    have hfield : (match c.jsIndex 0 with | JSVal.str _ => true | _ => false) = true := by
      have := hsafe
      unfold leafSafeB at this
      rw [if_pos (by simp [h3])] at this
      exact this
    rcases hidx : c.jsIndex 0 with _ | _ | b | k | field | l <;> rw [hidx] at hfield <;>
      try simp at hfield
    dsimp only
    by_cases hop1 : c.jsIndex 1 = .str "===".toList
    · refine ⟨_, by rw [if_pos hop1], fun hw => ?_⟩
      have : wfLeaf c = true := by simp [wfLeaf, h3, hidx, hop1]
      rw [this] at hw
      cases hw
    · rw [if_neg hop1]
      by_cases hop2 : c.jsIndex 1 = .str "!==".toList
      · refine ⟨_, by rw [if_pos hop2], fun hw => ?_⟩
        have : wfLeaf c = true := by simp [wfLeaf, h3, hidx, hop2]
        rw [this] at hw
        cases hw
      · rw [if_neg hop2]
        by_cases hop3 : c.jsIndex 1 = .str ">=".toList
        · refine ⟨_, by rw [if_pos hop3], fun hw => ?_⟩
          have : wfLeaf c = true := by simp [wfLeaf, h3, hidx, hop3]
          rw [this] at hw
          cases hw
        · rw [if_neg hop3]
          by_cases hop4 : c.jsIndex 1 = .str "<=".toList
          · refine ⟨_, by rw [if_pos hop4], fun hw => ?_⟩
            have : wfLeaf c = true := by simp [wfLeaf, h3, hidx, hop4]
            rw [this] at hw
            cases hw
          · rw [if_neg hop4]
            exact ⟨false, rfl, fun _ => rfl⟩
  · rw [if_neg h3]
    exact ⟨false, rfl, fun _ => rfl⟩

theorem evaluateCondition_safe_aux :
    ∀ (n : Nat) (c : JSVal) (party : Party), c.sz ≤ n → condSafe c = true →
      ∃ v, evaluateCondition c party = .ok v ∧
        (jsFalsy c = false → wfLeaf c = false → wfComposite c = false → v = false) := by
  intro n
  induction n with
  | zero =>
    intro c party hsz _
    have := JSVal.sz_pos c
    omega
  | succ n ih =>
    intro c party hsz hsafe
    by_cases hf : jsFalsy c = true
    · exact ⟨true, evaluateCondition_falsy c party hf,
        fun hff => by rw [hf] at hff; cases hff⟩
    · have hf' : jsFalsy c = false := by simpa using hf
      rcases c with _ | _ | b | k | s | l
      · simp [jsFalsy] at hf'
      · simp [jsFalsy] at hf'
      · rw [condSafe] at hsafe <;> try (intro _ h; cases h)
        rw [if_neg hf] at hsafe
        cases hsafe
      · rw [condSafe] at hsafe <;> try (intro _ h; cases h)
        rw [if_neg hf] at hsafe
        cases hsafe
      · rcases s with _ | ⟨a, t⟩
        · simp [jsFalsy] at hf'
        · exact ⟨false, evaluateCondition_str_nonempty a t party, fun _ _ _ => rfl⟩
      · rw [condSafe] at hsafe
        rw [if_neg hf] at hsafe
        by_cases hcomp : (l.contains (.str "and".toList) || l.contains (.str "or".toList)) = true
        · rw [dif_pos hcomp] at hsafe
          simp only [Bool.and_eq_true] at hsafe
          obtain ⟨⟨hs0, hs2⟩, hsrest⟩ := hsafe
          have hlt : ∀ i : Nat, ((JSVal.arr l).jsIndex i).sz < (JSVal.arr l).sz := by
            intro i
            rcases Bool.or_eq_true _ _ ▸ hcomp with h | h
            · exact @sz_jsIndex_lt_of_includes _ ("and".toList) i
                (by simp only [jsIncludes, h]) (by decide)
            · exact @sz_jsIndex_lt_of_includes _ ("or".toList) i
                (by simp only [jsIncludes, h]) (by decide)
          obtain ⟨v0, hv0, _⟩ := ih ((JSVal.arr l).jsIndex 0) party
            (by have := hlt 0; omega) hs0
          obtain ⟨v2, hv2, _⟩ := ih ((JSVal.arr l).jsIndex 2) party
            (by have := hlt 2; omega) hs2
          rw [evaluateCondition]
          rw [if_neg hf]
          dsimp only [jsIncludes]
          rw [dif_pos hcomp, hv0]
          dsimp only
          rw [hv2]
          dsimp only
          by_cases hman : (JSVal.arr l).jsIndex 1 = .str "and".toList
          · rw [if_pos hman]
            refine ⟨_, rfl, fun _ _ hwc => ?_⟩
            have : wfComposite (.arr l) = true := by simp [wfComposite, hman]
            rw [this] at hwc
            cases hwc
          · rw [if_neg hman]
            by_cases hmor : (JSVal.arr l).jsIndex 1 = .str "or".toList
            · rw [if_pos hmor]
              refine ⟨_, rfl, fun _ _ hwc => ?_⟩
              have : wfComposite (.arr l) = true := by simp [wfComposite, hmor]
              rw [this] at hwc
              cases hwc
            · rw [if_neg hmor]
              have hwc : wfComposite (.arr l) = false := by
                simp only [wfComposite, Bool.or_eq_false_iff, beq_eq_false_iff_ne, ne_eq]
                exact ⟨by simpa using hman, by simpa using hmor⟩
              have hleafsafe : leafSafeB (.arr l) = true := by
                rw [if_neg (by simp [hwc])] at hsrest
                exact hsrest
              obtain ⟨v, hveq, hvf⟩ := evalConditionLeaf_spec (.arr l) party hleafsafe
              exact ⟨v, hveq, fun _ hwl _ => hvf hwl⟩
        · rw [dif_neg (by simpa using hcomp)] at hsafe
          rw [evaluateCondition]
          rw [if_neg hf]
          dsimp only [jsIncludes]
          rw [dif_neg (by simpa using hcomp)]
          obtain ⟨v, hveq, hvf⟩ := evalConditionLeaf_spec (.arr l) party hsafe
          exact ⟨v, hveq, fun _ hwl _ => hvf hwl⟩

/-- A minimal party for condition-evaluator probes. -/
def condParty : Party := { players := fun _ => {} }

/-- C8 counterexample: `evaluateCondition` *can* throw.  A truthy condition
that is neither an array nor a string (here the number 5) throws a
`TypeError` at `.includes`, and a 3-element condition whose field path is
not a string (here `[1, '===', 1]`) throws inside `getContextValue` at
`field.split`. -/
theorem c8_counterexample :
    evaluateCondition (.num 5) condParty = .error () ∧
    evaluateCondition (.arr [.num 1, .str "===".toList, .num 1]) condParty = .error () := by
  constructor
  · rw [evaluateCondition]
    simp [jsFalsy, jsIncludes]
  · rw [evaluateCondition]
    simp [jsFalsy, jsIncludes, evalConditionLeaf, JSVal.jsLength, JSVal.jsIndex,
      String.toList]

/-- C8 (amended): an absent (falsy) condition evaluates to `true`; on the
throw-free fragment (`condSafe` — arrays whose recursed-into positions are
safe and whose reachable leaf branch has a string field path, plus strings)
evaluation never throws, and every malformed shape there — neither a
well-formed supported-operator leaf nor a well-formed `and`/`or` composite
— evaluates to `false` with a report.  (Outside that fragment the evaluator
throws, as the counterexample shows.) -/
theorem c8_fail_closed_amended :
    (∀ (c : JSVal) (party : Party), jsFalsy c = true → evaluateCondition c party = .ok true) ∧
    (∀ (c : JSVal) (party : Party), condSafe c = true →
      ∃ v, evaluateCondition c party = .ok v ∧
        (jsFalsy c = false → wfLeaf c = false → wfComposite c = false → v = false)) :=
  ⟨evaluateCondition_falsy,
   fun c party hs => evaluateCondition_safe_aux c.sz c party le_rfl hs⟩

theorem c8_fail_closed_amended_witness :
    ∃ v, evaluateCondition (.arr [.num 1, .num 2]) condParty = .ok v ∧
      (jsFalsy (.arr [.num 1, .num 2]) = false → wfLeaf (.arr [.num 1, .num 2]) = false →
        wfComposite (.arr [.num 1, .num 2]) = false → v = false) :=
  c8_fail_closed_amended.2 (.arr [.num 1, .num 2]) condParty
    (by rw [condSafe]; simp [jsFalsy, leafSafeB, JSVal.jsLength])

theorem triggerBoostAt_deck (p : Party) (i : Fin 2) (ans : Option Int) (f : Card → Card) :
    ((p.triggerBoostAt i ans f).getPlayer i).deck = (p.getPlayer i).deck := by
  unfold Party.triggerBoostAt
  rcases ans with _ | k
  · rfl
  · dsimp only
    split <;> simp

theorem applyTriggerEffect_deck (p : Party) (tt : String) (i : Fin 2) (o : Oracle)
    (h : tt ≠ "Draw") :
    (((p.applyTriggerEffect tt i o).1).getPlayer i).deck = (p.getPlayer i).deck := by
  unfold Party.applyTriggerEffect
  by_cases hfront : tt = "Front"
  · rw [if_pos hfront]
    simp
  · rw [if_neg hfront]
    dsimp only
    by_cases hcrit : tt = "Critical"
    · rw [if_pos hcrit]
      try dsimp only
      rw [triggerBoostAt_deck, triggerBoostAt_deck]
    · rw [if_neg hcrit]
      rw [if_neg h]
      by_cases hheal : tt = "Heal"
      · rw [if_pos hheal]
        try dsimp only
        split
        · split
          · simp [triggerBoostAt_deck]
          · simp [triggerBoostAt_deck]
        · simp [triggerBoostAt_deck]
      · rw [if_neg hheal]
        simp [triggerBoostAt_deck]

/-- The claim's reading of a run of damage checks for player `i`: `n`
checks, each — when the deck is non-empty — taking the *top* card off that
player's deck, resolving its trigger (via the engine's
`applyTriggerEffect`, so a `Draw` trigger also draws) if present, and
appending the revealed card to the damage zone; a check on an empty deck
does nothing. -/
inductive DamageChecks (i : Fin 2) : Nat → Party × Oracle → Party × Oracle → Prop where
  | zero : ∀ po, DamageChecks i 0 po po
  | skip : ∀ (n : Nat) (p : Party) (o : Oracle) (target : Party × Oracle),
      (p.getPlayer i).deck = [] →
      DamageChecks i n (p, o) target →
      DamageChecks i (n + 1) (p, o) target
  | succ : ∀ (n : Nat) (p : Party) (o : Oracle) (c : Card) (d : List Card)
      (p2 : Party) (o2 : Oracle) (target : Party × Oracle),
      (p.getPlayer i).deck = d ++ [c] →
      ((jsTruthyStr c.trigger = true ∧
          (p2, o2) = (p.setPlayer i { p.getPlayer i with deck := d }).applyTriggerEffect
            (c.trigger.getD "") i o) ∨
       (jsTruthyStr c.trigger = false ∧
          p2 = p.setPlayer i { p.getPlayer i with deck := d } ∧ o2 = o)) →
      DamageChecks i n
        (p2.setPlayer i
          { p2.getPlayer i with damageZone := (p2.getPlayer i).damageZone ++ [c] }, o2)
        target →
      DamageChecks i (n + 1) (p, o) target

theorem damageCheck_spec (i : Fin 2) :
    ∀ (n : Nat) (p : Party) (o : Oracle),
      DamageChecks i n (p, o) (p.damageCheck i n o) := by
  intro n
  induction n with
  | zero =>
    intro p o
    exact DamageChecks.zero _
  | succ n ih =>
    intro p o
    by_cases hne : (p.getPlayer i).deck = []
    · have hlast : (p.getPlayer i).deck.getLast? = none := by
        rw [hne]
        rfl
      rw [Party.damageCheck, hlast]
      dsimp only
      exact DamageChecks.skip n p o _ hne (ih p o)
    · have hsplit : (p.getPlayer i).deck =
          (p.getPlayer i).deck.dropLast ++ [(p.getPlayer i).deck.getLast hne] :=
        (List.dropLast_append_getLast hne).symm
      have hlast : (p.getPlayer i).deck.getLast? = some ((p.getPlayer i).deck.getLast hne) :=
        List.getLast?_eq_getLast _ hne
      set c := (p.getPlayer i).deck.getLast hne with hc
      rw [Party.damageCheck]
      rw [hlast]
      dsimp only
      set p1 := p.setPlayer i { p.getPlayer i with deck := (p.getPlayer i).deck.dropLast }
        with hp1
      by_cases htrig : jsTruthyStr c.trigger = true
      · rw [if_pos htrig]
        refine DamageChecks.succ n p o c (p.getPlayer i).deck.dropLast
          (p1.applyTriggerEffect (c.trigger.getD "") i o).1
          (p1.applyTriggerEffect (c.trigger.getD "") i o).2 _
          hsplit (Or.inl ⟨htrig, rfl⟩) ?_
        exact ih _ _
      · rw [if_neg htrig]
        refine DamageChecks.succ n p o c (p.getPlayer i).deck.dropLast p1 o _
          hsplit (Or.inr ⟨by simpa using htrig, rfl, rfl⟩) ?_
        exact ih _ _

theorem dropZone_closeStepFinish (p : Party) (j : Fin 2) (x : Card)
    (h : x ∈ (p.getPlayer j).dropZone) : x ∈ ((closeStepFinish p).getPlayer j).dropZone := by
  unfold closeStepFinish Party.setPlayer Party.getPlayer
  dsimp only
  unfold Party.getPlayer at h
  split <;>
  · by_cases hj : otherIdx p.currentPlayerIndex = j
    · subst hj
      simp only [Function.update_same]
      exact List.mem_append.mpr (Or.inl h)
    · simp only [Function.update_noteq (Ne.symm hj)]
      exact h

/-- The attacking unit of the C4 probes: critical 2, enough power to hit. -/
def c4Attacker : Card :=
  { uniqueId := 40, id := "atk", name := "Attacker", grade := some 3,
    power := some 13000, critical := 2 }

/-- The defending vanguard of the C4 probes. -/
def c4Target : Card :=
  { uniqueId := 41, id := "vg", name := "Vanguard", grade := some 2, power := some 10000 }

/-- A triggerless deck card for the C4 probes. -/
def c4DeckCard : Card :=
  { uniqueId := 42, id := "dk", name := "Deck", grade := some 0, power := some 5000 }

/-- A state in which player 0's vanguard (critical 2) has attacked player
1's vanguard with recorded power 13000 against 10000 and no guardians: the
attack hits `V`. -/
def c4Probe : Party :=
  { players := fun i =>
      if i = 0 then { board := { V := some c4Attacker } }
      else { board := { V := some c4Target }, deck := [c4DeckCard, c4DeckCard] },
    currentPlayerIndex := 0,
    phase := "drive_check",
    currentBattle := some { attackerCircle := .V, targetCircle := .V, attackerPower := 13000 } }

/-- C4 counterexample: the claim promises damage checks on *every* hit
against `V`, but `applyCloseStep` guards the whole damage step behind
`if (rl)`.  On a state whose battle is a clean vanguard hit by a
critical-2 attacker, calling it without a readline interface succeeds yet
moves no card at all: the defender's damage zone stays empty and the deck
keeps both cards. -/
theorem c4_counterexample :
    ((c4Probe.getPlayer 0).board.get .V).map (fun u => u.critical + u.bonusCritical) =
      some 2 ∧
    c4Probe.currentBattle.map Battle.targetCircle = some CircleId.V ∧
    (applyCloseStep c4Probe none).map
      (fun r => (((r.getPlayer 1).damageZone.length : Nat), (r.getPlayer 1).deck.length)) =
      .ok ((0 : Nat), (2 : Nat)) :=
  ⟨by decide, by decide, by decide⟩

/-- C4 (amended): when `applyCloseStep` resolves a hit against `V` *and a
readline interface is supplied*, the defender runs `critical +
bonusCritical` damage checks — each, when the deck is non-empty, taking
the top deck card, resolving its trigger if present (a `Draw` trigger also
draws, consuming a further deck card), and appending the revealed card to
the damage zone, while a check on an empty deck does nothing — and the
step finishes from the post-check state; the same vanguard hit *without*
a readline interface performs no damage check at all, because of the
`if (rl)` guard, and finishes from the unchanged state; a hit against any
other circle retires the target: its circle is emptied and the unit joins
the defender's drop zone. -/
theorem c4_damage_checks_amended :
    (∀ (s : Party) (o : Oracle) (b : Battle) (tu au : Card),
      s.currentBattle = some b →
      (s.getPlayer (otherIdx s.currentPlayerIndex)).board.get b.targetCircle = some tu →
      b.attackerPower ≥ tu.power.getD 0 + tu.bonusPower +
        ((s.getPlayer (otherIdx s.currentPlayerIndex)).guardianZone.map
          (fun c => c.shield.getD 0)).sum →
      b.targetCircle = CircleId.V →
      (s.getPlayer s.currentPlayerIndex).board.get b.attackerCircle = some au →
      DamageChecks (otherIdx s.currentPlayerIndex) (au.critical + au.bonusCritical).toNat
          (s, o)
          (s.damageCheck (otherIdx s.currentPlayerIndex)
            (au.critical + au.bonusCritical).toNat o) ∧
      applyCloseStep s (some o) = .ok (closeStepFinish
        (s.damageCheck (otherIdx s.currentPlayerIndex)
          (au.critical + au.bonusCritical).toNat o).1)) ∧
    (∀ (s : Party) (b : Battle) (tu au : Card),
      s.currentBattle = some b →
      (s.getPlayer (otherIdx s.currentPlayerIndex)).board.get b.targetCircle = some tu →
      b.attackerPower ≥ tu.power.getD 0 + tu.bonusPower +
        ((s.getPlayer (otherIdx s.currentPlayerIndex)).guardianZone.map
          (fun c => c.shield.getD 0)).sum →
      b.targetCircle = CircleId.V →
      (s.getPlayer s.currentPlayerIndex).board.get b.attackerCircle = some au →
      applyCloseStep s none = .ok (closeStepFinish s)) ∧
    (∀ (s : Party) (rl : Option Oracle) (b : Battle) (tu : Card),
      s.currentBattle = some b →
      (s.getPlayer (otherIdx s.currentPlayerIndex)).board.get b.targetCircle = some tu →
      b.attackerPower ≥ tu.power.getD 0 + tu.bonusPower +
        ((s.getPlayer (otherIdx s.currentPlayerIndex)).guardianZone.map
          (fun c => c.shield.getD 0)).sum →
      b.targetCircle ≠ CircleId.V →
      ∃ r, applyCloseStep s rl = .ok r ∧
        (r.getPlayer (otherIdx s.currentPlayerIndex)).board.get b.targetCircle = none ∧
        tu ∈ (r.getPlayer (otherIdx s.currentPlayerIndex)).dropZone) := by
  refine ⟨?_, ?_, ?_⟩
  · intro s o b tu au hb htu hhit hV hau
    refine ⟨damageCheck_spec _ _ _ _, ?_⟩
    unfold applyCloseStep
    rw [hb]
    dsimp only
    rw [htu]
    dsimp only
    rw [if_pos hhit, if_pos hV, hau]
  · intro s b tu au hb htu hhit hV hau
    unfold applyCloseStep
    rw [hb]
    dsimp only
    rw [htu]
    dsimp only
    rw [if_pos hhit, if_pos hV, hau]
  · intro s rl b tu hb htu hhit hV
    unfold applyCloseStep
    rw [hb]
    dsimp only
    rw [htu]
    dsimp only
    rw [if_pos hhit, if_neg hV]
    refine ⟨_, rfl, ?_, ?_⟩
    · rw [Board.board_closeStepFinish]
      rw [Party.getPlayer_setPlayer_self]
      dsimp only
      rw [Board.get_set_self]
    · apply dropZone_closeStepFinish
      rw [Party.getPlayer_setPlayer_self]
      dsimp only
      exact List.mem_append.mpr (Or.inr (List.mem_singleton.mpr rfl))

theorem c4_damage_checks_amended_witness :
    DamageChecks (otherIdx c4Probe.currentPlayerIndex)
        (c4Attacker.critical + c4Attacker.bonusCritical).toNat (c4Probe, ([] : Oracle))
        (c4Probe.damageCheck (otherIdx c4Probe.currentPlayerIndex)
          (c4Attacker.critical + c4Attacker.bonusCritical).toNat []) ∧
    applyCloseStep c4Probe (some []) = .ok (closeStepFinish
      (c4Probe.damageCheck (otherIdx c4Probe.currentPlayerIndex)
        (c4Attacker.critical + c4Attacker.bonusCritical).toNat []).1) :=
  c4_damage_checks_amended.1 c4Probe [] ⟨.V, .V, 13000⟩ c4Target c4Attacker
    (by decide) (by decide) (by decide) (by decide) (by decide)

theorem findWithIdx?_eq_none {α : Type} {l : List α} {p : α → Bool}
    (h : ∀ c ∈ l, p c = false) : findWithIdx? l p = none := by
  unfold findWithIdx?
  rw [List.findIdx?_eq_none_iff.mpr h]

/-- The single hand card of the C1 probe. -/
def c1HandCard : Card :=
  { uniqueId := 11, id := "hc", name := "HandCard", grade := some 1, power := some 8000 }

/-- A ride-phase state whose current player holds one card and whose board
and event queue are empty. -/
def c1Probe : Party :=
  { players := fun i => if i = 0 then { hand := [c1HandCard] } else {},
    currentPlayerIndex := 0,
    phase := "ride" }

/-- C1 counterexample: three structurally invalid actions observably break
the claim on `c1Probe`.  A `CALL` with a valid hand index but an unknown
circle tag throws (`getCircle`'s dead null-guard notwithstanding); a `CALL`
with a *missing* hand index is not rejected — `splice(undefined, 1)`
removes hand slot 0 and the card is placed on `R1`; and a `RIDE` whose card
id is absent from the hand returns the *input reference itself*, which the
dispatcher then advances to phase `main`, so the "unchanged original" comes
back mutated. -/
theorem c1_counterexample :
    applyAction 9 id c1Probe (.call (some 0) none "X") = some (.error ()) ∧
    (applyAction 9 id c1Probe (.call none none "R1")).map
      (Except.map (fun r =>
        ((r.1.getPlayer 0).hand.length, ((r.1.getPlayer 0).board.get .R1).isSome))) =
      some (.ok ((0 : Nat), true)) ∧
    (applyAction 9 id c1Probe (.ride "nope" "hand" none)).map
      (Except.map (fun r => (r.2.phase, decide (r.2 = c1Probe)))) =
      some (.ok ("main", false)) := by
  refine ⟨by decide, by decide, ?_⟩
  have h1 : applyRide c1Probe "nope" "hand" none = .orig := by decide
  unfold applyAction
  dsimp only
  rw [h1]
  dsimp only
  rw [processEvents.eq_def]
  decide

/-- C1 (amended): the rejection behaviour is per branch, not uniform.  A
`CALL` whose *present* index is out of range returns the unchanged input; a
`GUARD` whose instance id is not in the defending hand returns the
unchanged input; a `RIDE` whose card id is absent from the hand source
returns the input, but the dispatcher then sets `nextPhase` and (with an
empty event queue) advances the phase to `main` on that very reference; and
a `CALL` with an in-range index but an unknown circle tag throws. -/
theorem c1_invalid_actions_amended :
    (∀ (fuel : Nat) (shuf : List Card → List Card) (s : Party) (idx : Int)
        (iid : Option Nat) (tag : String),
      (idx < 0 ∨ ((s.getPlayer s.currentPlayerIndex).hand.length : Int) ≤ idx) →
      applyAction fuel shuf s (.call (some idx) iid tag) = some (.ok (s, s))) ∧
    (∀ (fuel : Nat) (shuf : List Card → List Card) (s : Party) (uid : Nat),
      (∀ c ∈ (s.getPlayer (otherIdx s.currentPlayerIndex)).hand, c.uniqueId ≠ uid) →
      applyAction fuel shuf s (.guard uid) = some (.ok (s, s))) ∧
    (∀ (fuel : Nat) (shuf : List Card → List Card) (s : Party) (cid : String)
        (dis : Option String),
      (∀ c ∈ (s.getPlayer s.currentPlayerIndex).hand, c.id ≠ cid) →
      s.eventQueue = [] →
      applyAction fuel shuf s (.ride cid "hand" dis) =
        some (.ok ({ s with nextPhase := some "main", phase := "main" },
                   { s with nextPhase := some "main", phase := "main" }))) ∧
    (∀ (fuel : Nat) (shuf : List Card → List Card) (s : Party) (idx : Int)
        (iid : Option Nat) (tag : String),
      0 ≤ idx → idx < ((s.getPlayer s.currentPlayerIndex).hand.length : Int) →
      Board.getCircleId tag = .error () →
      applyAction fuel shuf s (.call (some idx) iid tag) = some (.error ())) := by
  refine ⟨?_, ?_, ?_, ?_⟩
  · intro fuel shuf s idx iid tag h
    unfold applyAction applyCall
    dsimp only
    rw [if_pos (by
      rcases h with h | h <;> simp [jsLtB, jsGeB] <;> omega)]
  · intro fuel shuf s uid h
    unfold applyAction applyGuard
    dsimp only
    rw [findWithIdx?_eq_none (by
      intro c hc
      simpa using h c hc)]
  · intro fuel shuf s cid dis h hq
    unfold applyAction applyRide
    dsimp only
    rw [if_pos rfl]
    rw [findWithIdx?_eq_none (by
      intro c hc
      simpa using h c hc)]
    dsimp only
    rw [processEvents.eq_def]
    dsimp only
    rw [hq]
    dsimp only
    rfl
  · intro fuel shuf s idx iid tag h0 hlt htag
    unfold applyAction applyCall
    dsimp only
    rw [if_neg (by
      simp only [jsLtB, jsGeB, Bool.or_eq_true, decide_eq_true_eq, not_or, not_lt, ge_iff_le]
      omega)]
    try dsimp only
    rw [htag]

theorem c1_invalid_actions_amended_witness :
    applyAction 1 id c1Probe (.call (some 5) none "R1") = some (.ok (c1Probe, c1Probe)) ∧
    applyAction 1 id c1Probe (.guard 999) = some (.ok (c1Probe, c1Probe)) :=
  ⟨c1_invalid_actions_amended.1 1 id c1Probe 5 none "R1" (by decide),
   c1_invalid_actions_amended.2.1 1 id c1Probe 999 (by decide)⟩

/-- The two dispatcher branches in which `applyAction` hands the *input
reference itself* (not a clone) to the post-action bookkeeping: a `RIDE`
whose applier fails and returns `gameState`, and an `ACTIVATE_EFFECT` whose
pending-list lookup fails likewise. -/
def aliasPath (s : Party) : GameAction → Bool
  | .ride cardId source dis => applyRide s cardId source dis == .orig
  | .activateEffect cid fi => applyActivateEffect s cid fi == .ok .orig
  | _ => false

theorem pairSnd_of_mapped {o : Option (Except Unit Party)} {q : Party} {r : Party × Party}
    (h : o.map (fun x => match x with
         | Except.error u => Except.error u
         | Except.ok out => Except.ok (out, q)) = some (.ok r)) :
    r.2 = q := by
  rcases o with _ | er
  · simp at h
  · rcases er with u | out
    · simp at h
    · rw [Option.map_some'] at h
      dsimp only at h
      injection h with h1
      injection h1 with h2
      rw [← h2]

/-- The second hand card of the C2 probe. -/
def c2HandCard : Card :=
  { uniqueId := 21, id := "h2", name := "Hand2", grade := some 0, power := some 5000 }

/-- A ride-phase state used to exhibit the aliasing `RIDE` error path. -/
def c2Probe : Party :=
  { players := fun i => if i = 0 then { hand := [c2HandCard] } else {},
    currentPlayerIndex := 0,
    phase := "ride" }

/-- C2 counterexample: a `RIDE` whose card id is not in the hand makes
`applyRide` return the input reference, and the dispatcher then sets
`nextPhase` on it and runs `processEvents` on it: after the call the
*input's* observable contents have `phase = "main"` and no longer equal
the state passed in, refuting the purity claim. -/
theorem c2_counterexample :
    (applyAction 9 id c2Probe (.ride "nope" "hand" none)).map
      (Except.map (fun r => (r.2.phase, decide (r.2 = c2Probe)))) =
      some (.ok ("main", false)) := by
  have h1 : applyRide c2Probe "nope" "hand" none = .orig := by decide
  unfold applyAction
  dsimp only
  rw [h1]
  dsimp only
  rw [processEvents.eq_def]
  decide

/-- C2 (amended): outside the two aliasing error branches — a failed `RIDE`
and a failed `ACTIVATE_EFFECT` lookup, where the input reference itself is
mutated — every successful `applyAction` call leaves the input's observable
contents exactly as they were: the returned pair's second component (the
input's contents after the call) equals the state passed in. -/
theorem c2_no_mutation_amended :
    ∀ (fuel : Nat) (shuf : List Card → List Card) (s : Party) (a : GameAction)
      (r : Party × Party),
      aliasPath s a = false →
      applyAction fuel shuf s a = some (.ok r) →
      r.2 = s := by
  intro fuel shuf s a r hal h
  cases a with
  | mulligan idxs =>
    simp only [applyAction] at h
    injection h with h1
    injection h1 with h2
    rw [← h2]
  | ride cardId source dis =>
    simp only [aliasPath, beq_eq_false_iff_ne, ne_eq] at hal
    rcases har : applyRide s cardId source dis with ns | _
    · simp only [applyAction] at h
      rw [har] at h
      dsimp only at h
      exact pairSnd_of_mapped h
    · exact absurd har hal
  | passRidePhase =>
    simp only [applyAction] at h
    exact pairSnd_of_mapped h
  | call idx iid tag =>
    rcases hc : applyCall s idx tag with u | ao
    · simp only [applyAction] at h
      rw [hc] at h
      simp at h
    · cases ao <;>
      · simp only [applyAction] at h
        rw [hc] at h
        dsimp only at h
        injection h with h1
        injection h1 with h2
        rw [← h2]
  | act effect =>
    rcases ha : applyAct s effect with u | ns
    · simp only [applyAction] at h
      rw [ha] at h
      simp at h
    · simp only [applyAction] at h
      rw [ha] at h
      dsimp only at h
      injection h with h1
      injection h1 with h2
      rw [← h2]
  | activateEffect cid fi =>
    simp only [aliasPath, beq_eq_false_iff_ne, ne_eq] at hal
    rcases hae : applyActivateEffect s cid fi with u | ao
    · simp only [applyAction] at h
      rw [hae] at h
      simp at h
    · cases ao with
      | fresh ns =>
        simp only [applyAction] at h
        rw [hae] at h
        dsimp only at h
        exact pairSnd_of_mapped h
      | orig => exact absurd hae hal
  | move fromName toName =>
    rcases hm : applyMove s fromName toName with u | ns
    · simp only [applyAction] at h
      rw [hm] at h
      simp at h
    · simp only [applyAction] at h
      rw [hm] at h
      dsimp only at h
      injection h with h1
      injection h1 with h2
      rw [← h2]
  | attack an tn boost =>
    rcases hk : applyAttack s an tn boost with u | ao
    · simp only [applyAction] at h
      rw [hk] at h
      simp at h
    · cases ao <;>
      · simp only [applyAction] at h
        rw [hk] at h
        dsimp only at h
        injection h with h1
        injection h1 with h2
        rw [← h2]
  | guard uid =>
    rcases hg : applyGuard s uid with ns | _ <;>
    · simp only [applyAction] at h
      rw [hg] at h
      dsimp only at h
      injection h with h1
      injection h1 with h2
      rw [← h2]
  | intercept uid fc =>
    rcases hi : applyIntercept s uid fc with u | ao
    · simp only [applyAction] at h
      rw [hi] at h
      simp at h
    · cases ao <;>
      · simp only [applyAction] at h
        rw [hi] at h
        dsimp only at h
        injection h with h1
        injection h1 with h2
        rw [← h2]
  | passEffect =>
    simp only [applyAction] at h
    exact pairSnd_of_mapped h
  | passMainPhase =>
    simp only [applyAction] at h
    exact pairSnd_of_mapped h
  | passBattlePhase =>
    simp only [applyAction] at h
    exact pairSnd_of_mapped h
  | passGuardStep =>
    simp only [applyAction] at h
    exact pairSnd_of_mapped h
  | processEventsAction =>
    simp only [applyAction] at h
    injection h with h1
    injection h1 with h2
    rw [← h2]
  | pass =>
    simp only [applyAction] at h
    injection h with h1
    injection h1 with h2
    rw [← h2]

theorem c2_no_mutation_amended_witness :
    ((c2Probe, c2Probe) : Party × Party).2 = c2Probe :=
  c2_no_mutation_amended 1 id c2Probe .pass (c2Probe, c2Probe) (by decide) (by decide)
